import Mathlib

/-!
Verification of the bitboard core of this Stockfish fork (src/bitboard.cpp).

The file shallowly embeds the source: squares are naturals 0..63, bitboards
are naturals below 2^64, and every 64-bit machine operation is modelled on
naturals with explicit reduction modulo 2^64 where overflow matters.
Components whose code lives in the missing header (bitboard.h) are modelled
from the specification and carry a doc comment saying so.
-/

namespace StockfishBB

/-! ## Square geometry -/

def file_of (s : Nat) : Nat := s % 8

def rank_of (s : Nat) : Nat := s / 8

def natDiff (a b : Nat) : Nat := max (a - b) (b - a)

/-- Modelled from the spec: `distance` comes from the missing header; §4.1 fixes
it as the Chebyshev distance max(|Δfile|, |Δrank|), which is also exactly the
formula the source stores into `SquareDistance` (bitboard.cpp line 92). -/
def distance (a b : Nat) : Nat :=
  max (natDiff (file_of a) (file_of b)) (natDiff (rank_of a) (rank_of b))

def square_bb (s : Nat) : Nat := 1 <<< s

/-- `safe_destination` (bitboard.cpp line 53).  The on-board test `is_ok` comes
from the missing header and is modelled from the spec as 0 ≤ to ≤ 63. -/
def safe_destination (s : Nat) (step : Int) : Nat :=
  let dst : Int := (s : Int) + step
  if 0 ≤ dst ∧ dst ≤ 63 ∧ distance s dst.toNat ≤ 2 then square_bb dst.toNat else 0

/-! ## Sliding attacks (bitboard.cpp lines 129-143) -/

inductive PieceType where
  | ROOK
  | BISHOP
deriving DecidableEq

/-- One ray of `sliding_attack`: the while loop
`while (safe_destination(s, d) && !(occupied & s)) attacks |= (s += d);`
with explicit fuel (8 is enough: no ray on an 8×8 board makes 8 safe steps). -/
def walk (occupied : Nat) (d : Int) : Nat → Nat → Nat
  | 0, _ => 0
  | fuel + 1, s =>
    if safe_destination s d ≠ 0 ∧ occupied &&& square_bb s = 0 then
      square_bb ((s : Int) + d).toNat ||| walk occupied d fuel ((s : Int) + d).toNat
    else 0

/-- `sliding_attack` (bitboard.cpp line 129): the directions loop unrolled in
source order (ROOK: NORTH, SOUTH, EAST, WEST; BISHOP: NE, SE, SW, NW). -/
def sliding_attack (pt : PieceType) (sq occupied : Nat) : Nat :=
  match pt with
  | .ROOK =>
    ((walk occupied 8 8 sq ||| walk occupied (-8) 8 sq) ||| walk occupied 1 8 sq) |||
      walk occupied (-1) 8 sq
  | .BISHOP =>
    ((walk occupied 9 8 sq ||| walk occupied (-7) 8 sq) ||| walk occupied (-9) 8 sq) |||
      walk occupied 7 8 sq

/-! ## Edges and relevant-occupancy masks (bitboard.cpp lines 145-148) -/

def Rank1BB : Nat := 0xFF

def Rank8BB : Nat := 0xFF <<< 56

def FileABB : Nat := 0x0101010101010101

def FileHBB : Nat := FileABB <<< 7

def rank_bb (s : Nat) : Nat := Rank1BB <<< (8 * rank_of s)

def file_bb (s : Nat) : Nat := FileABB <<< file_of s

/-- 64-bit complement `~x`. -/
def bbNot (x : Nat) : Nat := (2 ^ 64 - 1) ^^^ x

def edges (sq : Nat) : Nat :=
  ((Rank1BB ||| Rank8BB) &&& bbNot (rank_bb sq)) |||
    ((FileABB ||| FileHBB) &&& bbNot (file_bb sq))

/-- The mask argument of every `Magic` constructor call in `init_rook_magic` /
`init_bishop_magic`: `sliding_attack(pt, s, 0) & ~edges(s)`. -/
def maskOf (pt : PieceType) (s : Nat) : Nat := sliding_attack pt s 0 &&& bbNot (edges s)

/-! ## The embedded magic constants (bitboard.cpp lines 150-288) -/

def RookMagicInit : List Nat := [
  0x0000002044010082, 0x0000404208010084, 0x0001000820840021, 0x0000080004100201,
  0x0001002044100009, 0x0000a50040a00111, 0x00050010a283c001, 0x0013110080244202,
  0x00002c0058802600, 0x0001080850022400, 0x0007000400009100, 0x000a001058602200,
  0x0008104020040200, 0x0020028044900080, 0x0040002000100020, 0x00ed8005c2610100,
  0x0000330040960004, 0x00025014480c0009, 0x0004000802010004, 0x0006009001420004,
  0x0015002010010002, 0x0020001004001000, 0x000a021100220008, 0x0080004000204010,
  0x0001000491000246, 0x0003100a04001658, 0x0000200080200100, 0x0000402008008004,
  0x0004000200100100, 0x0010002000200402, 0x0040000800100010, 0x00b4c003888001a0,
  0x0001440200008829, 0x0002000040008001, 0x0002003a00081910, 0x0000200200041001,
  0x0010100080080002, 0x0000200020040008, 0x000c400100082480, 0x0080002040004013,
  0x0001f2000286224c, 0x0001440010009218, 0x0003e80040200210, 0x0000010004100800,
  0x0008002020040002, 0x0002020008104080, 0x0000404000200008, 0x007a808000400ad2,
  0x004200004091040a, 0x0032000041180200, 0x0001000400080100, 0x0001000100040800,
  0x0044004010082004, 0x0022001080042040, 0x0032000a00208240, 0x0040800080400010,
  0x0200020400288043, 0x040008100402138d, 0x0a004400180a0010, 0x0100048100100800,
  0x0900082002100005, 0x0a00100880402004, 0x1100088410400100, 0x0200110200204080]

def BishopMagicInit : List Nat := [
  0x0000500102002008, 0x0000010101000880, 0x0000000042008100, 0x0000000001200404,
  0x0000000002008022, 0x0000000201010040, 0x0000002080080080, 0x000100080084004c,
  0x0000808100040400, 0x0040100401004200, 0x0000680208020000, 0x0000000120020104,
  0x0000000201010028, 0x000002000a0100a6, 0x0001001202004000, 0x00040200840087f1,
  0x0018061012002180, 0x0008002100400020, 0x0000a00d40800700, 0x0000205004000480,
  0x0000002008003020, 0x0000402080424020, 0x0004020044041000, 0x0004040201000800,
  0x00080e090062000f, 0x0010040080880410, 0x0000220020040400, 0x0008010040100802,
  0x0002010040040040, 0x0000108200401200, 0x0000820024c80021, 0x0000100400100080,
  0x0002820001004010, 0x0000090002008040, 0x001001000020110e, 0x0004040030410042,
  0x0004010010089080, 0x000c010002040c00, 0x0000100060020480, 0x0004010102080108,
  0x0000807810040200, 0x0000083021040020, 0x0004020600840100, 0x0018040040401fc2,
  0x003c001801098204, 0x0002042010200820, 0x0001004028010100, 0x0000804000808100,
  0x0000004010080208, 0x0000010020820040, 0x0000020104004000, 0x0000140101011c72,
  0x0000004400402640, 0x0000020010108160, 0x0000010808008002, 0x0000040808010006,
  0x0002040082002000, 0x00040080880040f6, 0x00000800401fc800, 0x0000808041000000,
  0x0008020004014060, 0x0030040181041018, 0x0000202100202100, 0x0060002200404200]

def magicNumOf (pt : PieceType) (s : Nat) : Nat :=
  match pt with
  | .ROOK => RookMagicInit.getD s 0
  | .BISHOP => BishopMagicInit.getD s 0

/-- `RookBits`: the fixed rook index width, from the spec (§6: 12 in the
reference geometry; the maximum rook relevant-mask population count). -/
def RookBits : Nat := 12

/-- `BishopBits`: the fixed bishop index width, from the spec (§6: 9). -/
def BishopBits : Nat := 9

def bitsOf : PieceType → Nat
  | .ROOK => RookBits
  | .BISHOP => BishopBits

/-! ## The magic index function -/

/-- Bit-reversal of an `f`-bit word, lowest bit first. -/
def revM : Nat → Nat → Nat
  | 0, _ => 0
  | f + 1, x => x % 2 * 2 ^ f + revM f (x / 2)

/-- Reversal of the 64 low bits of a word. -/
def bitrev64 (x : Nat) : Nat := revM 64 x

/-- Modelled from the spec: `Magic<bits>::index` lives in the missing header.
§4.3 specifies a multiply-shift perfect hash over `occupancy & mask` whose
exact index assignment is free as long as it is injective per square; the
embedded constants of this fork are collision-free exactly for the
multiply-shift hash applied to the bit-reversed masked occupancy, so that
is the variant modelled here: take `occ & mask`, reverse its 64 bits,
multiply by the magic constant modulo 2^64 and keep the top `bits` bits. -/
def magic_index (mask magic bits occ : Nat) : Nat :=
  ((bitrev64 (occ &&& mask) * magic) % (2 ^ 64)) >>> (64 - bits)

def indexOf (pt : PieceType) (s occ : Nat) : Nat :=
  magic_index (maskOf pt s) (magicNumOf pt s) (bitsOf pt) occ

/-! ## Carry-Rippler subset enumeration (bitboard.cpp lines 304-312) -/

/-- One step `b = (b - mask) & mask` of the enumeration, with the 64-bit
wraparound subtraction made explicit. -/
def nextSubset (mask b : Nat) : Nat := ((b + 2 ^ 64 - mask) % 2 ^ 64) &&& mask

def subsetsFrom (mask : Nat) : Nat → Nat → List Nat
  | 0, _ => []
  | n + 1, b => b :: subsetsFrom mask n (nextSubset mask b)

def popcountAux : Nat → Nat → Nat
  | 0, _ => 0
  | fuel + 1, n => if n = 0 then 0 else popcountAux fuel (n / 2) + n % 2

def popcount (n : Nat) : Nat := popcountAux 64 n

/-- The boards visited by the do-while loop of `init_table`, in order: the
Carry-Rippler sequence started at the empty board, one full cycle. -/
def subsetList (mask : Nat) : List Nat := subsetsFrom mask (2 ^ popcount mask) 0

/-! ## Attack table construction (bitboard.cpp lines 295-315) -/

/-- A single table-slot write. -/
def updF (t : Nat → Nat) (k v : Nat) : Nat → Nat := fun x => if x = k then v else t x

/-- The row of the attack table built by `init_table` for square `s`:
for each enumerated board the slot at `magic.index(board)` receives
`sliding_attack(pt, s, board)`; slots never written stay zero-initialized. -/
def init_table (pt : PieceType) (s : Nat) : Nat → Nat :=
  (subsetList (maskOf pt s)).foldl
    (fun t b => updF t (indexOf pt s b) (sliding_attack pt s b)) (fun _ => 0)

/-- Modelled from the spec: `attacks_bb` lives in the missing header; §6 fixes
it, for sliding categories, as the magic-index lookup into the table built
by `init_table`. -/
def attacks_bb (pt : PieceType) (s occ : Nat) : Nat := init_table pt s (indexOf pt s occ)

/-! ## Derived tables (Bitboards::init, bitboard.cpp lines 100-124) -/

/-- `PseudoAttacks[BISHOP/ROOK][s]` as assigned on lines 111-112:
`attacks_bb<pt>(s, 0)`. -/
def PseudoAttacks (pt : PieceType) (s : Nat) : Nat := attacks_bb pt s 0

/-- `LineBB[s1][s2]` as built by the nested loops of lines 114-123: the BISHOP
pass runs first and the ROOK pass second, so when the ROOK condition holds its
assignment is the one that survives; pairs passing neither test stay zero. -/
def LineBB (s1 s2 : Nat) : Nat :=
  if PseudoAttacks .ROOK s1 &&& square_bb s2 ≠ 0 then
    ((attacks_bb .ROOK s1 0 &&& attacks_bb .ROOK s2 0) ||| square_bb s1) ||| square_bb s2
  else if PseudoAttacks .BISHOP s1 &&& square_bb s2 ≠ 0 then
    ((attacks_bb .BISHOP s1 0 &&& attacks_bb .BISHOP s2 0) ||| square_bb s1) ||| square_bb s2
  else 0

/-- `BetweenBB[s1][s2]` from the same loops: the aligned intersection when one
of the two tests passes, and `s2` OR-ed in unconditionally (line 122). -/
def BetweenBB (s1 s2 : Nat) : Nat :=
  (if PseudoAttacks .ROOK s1 &&& square_bb s2 ≠ 0 then
    attacks_bb .ROOK s1 (square_bb s2) &&& attacks_bb .ROOK s2 (square_bb s1)
  else if PseudoAttacks .BISHOP s1 &&& square_bb s2 ≠ 0 then
    attacks_bb .BISHOP s1 (square_bb s2) &&& attacks_bb .BISHOP s2 (square_bb s1)
  else 0) ||| square_bb s2

/-! ## Construction-time checks

`init_table` asserts, for each enumerated board, that the produced index has
not been seen before in the current square's pass.  The checks below verify
exactly that, organised as balanced segment trees over the subset numbering
so that they evaluate inside the proof checker.  `pdepF` deposits the low
bits of `k` into the set positions of `mask` (the position of a subset in
Carry-Rippler order); `idxStep` is the index computation on an already
reversed board. -/

def pdepF : Nat → Nat → Nat → Nat
  | 0, _, _ => 0
  | f + 1, mask, k =>
    if mask = 0 then 0
    else if mask % 2 = 1 then 2 * pdepF f (mask / 2) (k / 2) + k % 2
    else 2 * pdepF f (mask / 2) k

def idxStep (magic bits c : Nat) : Nat := ((c * magic) % (2 ^ 64)) >>> (64 - bits)

def segChain (rmask magic bits : Nat) : Nat → Nat → Nat → Option Nat
  | 0, _, seen => some seen
  | n + 1, c, seen =>
    if seen.testBit (idxStep magic bits c) then none
    else segChain rmask magic bits n (nextSubset rmask c)
      (seen ||| (1 <<< idxStep magic bits c))

def combineSeen : Option Nat → Option Nat → Option Nat
  | some a, some b => if a &&& b = 0 then some (a ||| b) else none
  | _, _ => none

def segTree (rmask magic bits : Nat) : Nat → Nat → Option Nat
  | 0, j => segChain rmask magic bits 64 (pdepF 64 rmask (64 * j)) 0
  | h + 1, j =>
    combineSeen (segTree rmask magic bits h (2 * j)) (segTree rmask magic bits h (2 * j + 1))

/-- Collision-freeness of one square's magic: every subset of the (reversed)
mask receives a fresh index. -/
def magicOK (mask magic bits : Nat) : Bool :=
  let rmask := bitrev64 mask
  let pc := popcount rmask
  if pc ≤ 6 then (segChain rmask magic bits (2 ^ pc) 0 0).isSome
  else (segTree rmask magic bits (pc - 6) 0).isSome

def allMagicOK : Bool :=
  (List.range 64).all fun s =>
    magicOK (maskOf .ROOK s) (magicNumOf .ROOK s) RookBits &&
      magicOK (maskOf .BISHOP s) (magicNumOf .BISHOP s) BishopBits

/-! ## Relevant bits of a ray walk

`relBits` collects the squares whose occupancy the while loop of
`sliding_attack` actually tests with effect: the current square of every
iteration whose step stays on the board. -/

def relBits (d : Int) : Nat → Nat → Nat
  | 0, _ => 0
  | fuel + 1, s =>
    if safe_destination s d ≠ 0 then square_bb s ||| relBits d fuel ((s : Int) + d).toNat
    else 0

def relAll (pt : PieceType) (sq : Nat) : Nat :=
  match pt with
  | .ROOK => ((relBits 8 8 sq ||| relBits (-8) 8 sq) ||| relBits 1 8 sq) ||| relBits (-1) 8 sq
  | .BISHOP => ((relBits 9 8 sq ||| relBits (-7) 8 sq) ||| relBits (-9) 8 sq) ||| relBits 7 8 sq

def relAllOK : Bool :=
  (List.range 64).all fun s =>
    (relAll .ROOK s == maskOf .ROOK s ||| square_bb s) &&
      (relAll .BISHOP s == maskOf .BISHOP s ||| square_bb s)

/-! ## Ray geometry used to state the sliding-attack characterisation -/

/-- The board position reached after `i` steps of size `d` from `s`. -/
def posAlong (s : Nat) (d : Int) (i : Nat) : Nat := ((s : Int) + i * d).toNat

/-- `i` consecutive steps of size `d` from `s` all pass the
`safe_destination` test. -/
def chainSafe (d : Int) : Nat → Nat → Bool
  | 0, _ => true
  | n + 1, s => safe_destination s d != 0 && chainSafe d n (((s : Int) + d).toNat)

def noChain8 : Bool :=
  ([8, -8, 1, -1, 9, -7, -9, 7] : List Int).all fun d =>
    (List.range 64).all fun s => !chainSafe d 8 s

/-- The attack predicate exactly as the specification words it (§4.2): walk
from the origin; a step leaving the board stops the ray; every reached
destination is attacked; the walk goes on past a destination only while that
destination is not occupied.  Occupancy of the origin itself plays no role. -/
def specAttacked (pt : PieceType) (sq occ x : Nat) : Prop :=
  ∃ d ∈ (match pt with
    | PieceType.ROOK => ([8, -8, 1, -1] : List Int)
    | PieceType.BISHOP => ([9, -7, -9, 7] : List Int)),
    ∃ n : Nat, 1 ≤ n ∧ (∀ i, i < n → safe_destination (posAlong sq d i) d ≠ 0) ∧
      x = posAlong sq d n ∧
      ∀ i, 1 ≤ i → i < n → occ &&& square_bb (posAlong sq d i) = 0

/-- The attack predicate as the code implements it: identical to
`specAttacked` except that the occupancy test applies to the current square
before every step, the origin included. -/
def codeAttacked (pt : PieceType) (sq occ x : Nat) : Prop :=
  ∃ d ∈ (match pt with
    | PieceType.ROOK => ([8, -8, 1, -1] : List Int)
    | PieceType.BISHOP => ([9, -7, -9, 7] : List Int)),
    ∃ n : Nat, 1 ≤ n ∧ (∀ i, i < n → safe_destination (posAlong sq d i) d ≠ 0) ∧
      x = posAlong sq d n ∧
      ∀ i, i < n → occ &&& square_bb (posAlong sq d i) = 0

/-! ## Independent geometric descriptions used by the table claims -/

/-- `x` lies strictly between `s1` and `s2` on a shared file, rank, diagonal
or antidiagonal: all three squares on one line of the same kind, with
additive Chebyshev distance. -/
def strictlyBetween (s1 s2 x : Nat) : Bool :=
  x != s1 && x != s2 &&
    ((file_of s1 == file_of s2 && file_of s1 == file_of x) ||
     (rank_of s1 == rank_of s2 && rank_of s1 == rank_of x) ||
     (file_of s1 + rank_of s2 == file_of s2 + rank_of s1 &&
       file_of s1 + rank_of x == file_of x + rank_of s1) ||
     (file_of s1 + rank_of s1 == file_of s2 + rank_of s2 &&
       file_of s1 + rank_of s1 == file_of x + rank_of x)) &&
    distance s1 x + distance x s2 == distance s1 s2

/-- The open segment between two squares, as a bitboard. -/
def openSegment (s1 s2 : Nat) : Nat :=
  (List.range 64).foldr (fun x acc => if strictlyBetween s1 s2 x then square_bb x ||| acc else acc) 0

/-- The board-edge set described by the spec: squares on the edge ranks
except `s`'s own rank, and squares on the edge files except `s`'s own file. -/
def edgesSpec (s : Nat) : Nat :=
  (List.range 64).foldr
    (fun x acc =>
      if ((rank_of x == 0 || rank_of x == 7) && rank_of x != rank_of s) ||
          ((file_of x == 0 || file_of x == 7) && file_of x != file_of s) then
        square_bb x ||| acc
      else acc)
    0

/-- `BetweenBB` with both table lookups replaced by the ray-walking oracle:
the form the table theorems reduce it to. -/
def betweenS (s1 s2 : Nat) : Nat :=
  (if sliding_attack .ROOK s1 0 &&& square_bb s2 ≠ 0 then
    sliding_attack .ROOK s1 (square_bb s2) &&& sliding_attack .ROOK s2 (square_bb s1)
  else if sliding_attack .BISHOP s1 0 &&& square_bb s2 ≠ 0 then
    sliding_attack .BISHOP s1 (square_bb s2) &&& sliding_attack .BISHOP s2 (square_bb s1)
  else 0) ||| square_bb s2


/-! ## Decidable whole-board checks used by the table theorems -/

/-- The categorised edge computation of lines 145-148 agrees with the spec's
description of the edge set on every square. -/
def edgesOK : Bool :=
  (List.range 64).all fun s => edges s == edgesSpec s

/-- The empty-board rook and bishop rays of one square share no target. -/
def pseudoDisjoint : Bool :=
  (List.range 64).all fun s =>
    (sliding_attack .ROOK s 0 &&& sliding_attack .BISHOP s 0) == 0

/-- `s2` is reachable from `s1` along some empty-board sliding ray. -/
def alignedB (s1 s2 : Nat) : Bool :=
  (sliding_attack .ROOK s1 0 &&& square_bb s2 != 0) ||
    (sliding_attack .BISHOP s1 0 &&& square_bb s2 != 0)

/-- Ray reachability on the empty board matches the geometric description:
rook rays reach exactly the distinct squares of the same file or rank, bishop
rays exactly the distinct squares of the same diagonal or antidiagonal. -/
def pseudoGeomOK : Bool :=
  (List.range 64).all fun s1 => (List.range 64).all fun s2 =>
    ((sliding_attack .ROOK s1 0 &&& square_bb s2 != 0) ==
      (s1 != s2 && (file_of s1 == file_of s2 || rank_of s1 == rank_of s2))) &&
    ((sliding_attack .BISHOP s1 0 &&& square_bb s2 != 0) ==
      (s1 != s2 && (file_of s1 + rank_of s2 == file_of s2 + rank_of s1 ||
        file_of s1 + rank_of s1 == file_of s2 + rank_of s2)))

/-- On every aligned pair the endpoint-blocked ray intersection is the open
segment, so `betweenS` is that segment plus the destination square. -/
def betweenOK : Bool :=
  (List.range 64).all fun s1 => (List.range 64).all fun s2 =>
    (!(alignedB s1 s2)) || (betweenS s1 s2 == openSegment s1 s2 ||| square_bb s2)

/-! ## Population count and bit deposit (specification-side helpers) -/

def popcountM (n : Nat) : Nat :=
  if h : n = 0 then 0 else popcountM (n / 2) + n % 2
termination_by n
decreasing_by omega

def pdep (mask k : Nat) : Nat :=
  if h : mask = 0 then 0
  else if mask % 2 = 1 then 2 * pdep (mask / 2) (k / 2) + k % 2
  else 2 * pdep (mask / 2) k
termination_by mask
decreasing_by all_goals omega

/-! # Proofs



## Generic bit-level toolkit -/

theorem two_mul_add_div_two (a a0 : Nat) (h : a0 < 2) : (2 * a + a0) / 2 = a := by omega

theorem two_mul_add_mod_two (a a0 : Nat) (h : a0 < 2) : (2 * a + a0) % 2 = a0 := by omega

/-- Bitwise and, one binary digit at a time. -/
theorem land_bit (a b a0 b0 : Nat) (ha : a0 < 2) (hb : b0 < 2) :
    (2 * a + a0) &&& (2 * b + b0) = 2 * (a &&& b) + a0 * b0 := by
  have h1 : ((2 * a + a0) &&& (2 * b + b0)) / 2 = a &&& b := by
    rw [Nat.and_div_two, two_mul_add_div_two _ _ ha, two_mul_add_div_two _ _ hb]
  obtain ⟨p, hp⟩ : ∃ p, a0 * b0 = p := ⟨_, rfl⟩
  rw [hp]
  have h2 : ((2 * a + a0) &&& (2 * b + b0)) % 2 = p := by
    have hm : ((2 * a + a0) &&& (2 * b + b0)) % 2 = 1 ↔
        ((2 * a + a0) % 2 = 1 ∧ (2 * b + b0) % 2 = 1) := Nat.and_mod_two_eq_one
    rcases (by omega : a0 = 0 ∨ a0 = 1) with h | h <;> subst h <;>
      rcases (by omega : b0 = 0 ∨ b0 = 1) with h' | h' <;> subst h' <;> omega
  omega

/-- Splitting a subset relation `b &&& m = b` into its low bit and its high part. -/
theorem subset_split (m b : Nat) (h : b &&& m = b) :
    b / 2 &&& m / 2 = b / 2 ∧ b % 2 ≤ m % 2 := by
  have hb : b = 2 * (b / 2) + b % 2 := by omega
  have hm : m = 2 * (m / 2) + m % 2 := by omega
  rw [hb, hm] at h
  rw [land_bit (b / 2) (m / 2) (b % 2) (m % 2) (by omega) (by omega)] at h
  obtain ⟨p, hp⟩ : ∃ p, b % 2 * (m % 2) = p := ⟨_, rfl⟩
  rw [hp] at h
  have hple : p ≤ 1 := by
    rcases (by omega : b % 2 = 0 ∨ b % 2 = 1) with h2 | h2 <;> rw [h2] at hp <;>
      simp at hp <;> omega
  have h1 : b / 2 &&& m / 2 = b / 2 ∧ p = b % 2 := by constructor <;> omega
  refine ⟨h1.1, ?_⟩
  rcases (by omega : m % 2 = 0 ∨ m % 2 = 1) with h2 | h2 <;> rw [h2] at hp <;>
    simp at hp <;> omega

theorem land_mod_pow (x m W : Nat) (hm : m < 2 ^ W) : (x % 2 ^ W) &&& m = x &&& m := by
  apply Nat.eq_of_testBit_eq
  intro i
  simp only [Nat.testBit_and, Nat.testBit_mod_two_pow]
  by_cases h : i < W
  · simp [h]
  · have : m.testBit i = false := Nat.testBit_lt_two_pow (lt_of_lt_of_le hm
      (Nat.pow_le_pow_right (by omega) (by omega)))
    simp [this]

/-! ## Population count -/

theorem popcountM_zero : popcountM 0 = 0 := by
  rw [popcountM]
  simp

theorem popcountM_ne (n : Nat) (h : n ≠ 0) : popcountM n = popcountM (n / 2) + n % 2 := by
  rw [popcountM]
  simp [h]

theorem popcountAux_eq (f : Nat) : ∀ n, n < 2 ^ f → popcountAux f n = popcountM n := by
  induction f with
  | zero =>
    intro n hn
    have : n = 0 := by omega
    subst this
    simp [popcountAux, popcountM_zero]
  | succ g ih =>
    intro n hn
    by_cases h : n = 0
    · subst h
      simp [popcountAux, popcountM_zero]
    · rw [show popcountAux (g + 1) n = popcountAux g (n / 2) + n % 2 by simp [popcountAux, h],
        popcountM_ne n h, ih (n / 2) (by omega)]

theorem popcount_eq (n : Nat) (hn : n < 2 ^ 64) : popcount n = popcountM n :=
  popcountAux_eq 64 n hn

/-! ## Bit deposit: the position of a subset in Carry-Rippler order -/

theorem pdep_zero_mask (k : Nat) : pdep 0 k = 0 := by
  rw [pdep]
  simp

theorem pdep_odd (mask k : Nat) (h0 : mask ≠ 0) (h1 : mask % 2 = 1) :
    pdep mask k = 2 * pdep (mask / 2) (k / 2) + k % 2 := by
  rw [pdep]
  simp [h0, h1]

theorem pdep_even (mask k : Nat) (h0 : mask ≠ 0) (h1 : mask % 2 = 0) :
    pdep mask k = 2 * pdep (mask / 2) k := by
  rw [pdep]
  simp [h0, h1]

theorem popcountM_odd (mask : Nat) (h0 : mask ≠ 0) (h1 : mask % 2 = 1) :
    popcountM mask = popcountM (mask / 2) + 1 := by
  rw [popcountM_ne mask h0, h1]

theorem popcountM_even (mask : Nat) (h0 : mask ≠ 0) (h1 : mask % 2 = 0) :
    popcountM mask = popcountM (mask / 2) := by
  rw [popcountM_ne mask h0, h1]
  omega

theorem pdep_zero (mask : Nat) : pdep mask 0 = 0 := by
  induction mask using Nat.strong_induction_on with
  | _ mask ih =>
    by_cases h0 : mask = 0
    · subst h0
      exact pdep_zero_mask 0
    rcases (by omega : mask % 2 = 1 ∨ mask % 2 = 0) with h1 | h1
    · rw [pdep_odd mask 0 h0 h1]
      rw [show (0 : Nat) / 2 = 0 by omega, ih (mask / 2) (by omega)]
    · rw [pdep_even mask 0 h0 h1, ih (mask / 2) (by omega)]

theorem land_bit0 (a b b0 : Nat) (hb : b0 < 2) : (2 * a) &&& (2 * b + b0) = 2 * (a &&& b) := by
  have h := land_bit a b 0 b0 (by omega) hb
  simpa using h

theorem pdep_land (mask : Nat) : ∀ k, pdep mask k &&& mask = pdep mask k := by
  induction mask using Nat.strong_induction_on with
  | _ mask ih =>
    intro k
    by_cases h0 : mask = 0
    · subst h0
      simp [pdep_zero_mask]
    have hm : mask = 2 * (mask / 2) + mask % 2 := by omega
    rcases (by omega : mask % 2 = 1 ∨ mask % 2 = 0) with h1 | h1
    · rw [pdep_odd mask k h0 h1]
      obtain ⟨P, hP⟩ : ∃ P, pdep (mask / 2) (k / 2) = P := ⟨_, rfl⟩
      have ihP : P &&& (mask / 2) = P := by
        rw [← hP]
        exact ih (mask / 2) (by omega) (k / 2)
      rw [hP]
      conv_lhs => rw [hm, h1]
      rw [land_bit P (mask / 2) (k % 2) 1 (by omega) (by omega), ihP]
      omega
    · rw [pdep_even mask k h0 h1]
      obtain ⟨P, hP⟩ : ∃ P, pdep (mask / 2) k = P := ⟨_, rfl⟩
      have ihP : P &&& (mask / 2) = P := by
        rw [← hP]
        exact ih (mask / 2) (by omega) k
      rw [hP]
      conv_lhs => rw [hm, h1]
      rw [land_bit0 P (mask / 2) 0 (by omega), ihP]

theorem pdep_le (mask k : Nat) : pdep mask k ≤ mask := by
  conv_lhs => rw [← pdep_land mask k]
  exact Nat.and_le_right

theorem pdep_lt_pdep (mask : Nat) : ∀ k l, k < l → l < 2 ^ popcountM mask →
    pdep mask k < pdep mask l := by
  induction mask using Nat.strong_induction_on with
  | _ mask ih =>
    intro k l hkl hl
    by_cases h0 : mask = 0
    · subst h0
      rw [popcountM_zero] at hl
      omega
    rcases (by omega : mask % 2 = 1 ∨ mask % 2 = 0) with h1 | h1
    · rw [pdep_odd mask k h0 h1, pdep_odd mask l h0 h1]
      rw [popcountM_odd mask h0 h1, pow_succ] at hl
      rcases (by omega : k / 2 < l / 2 ∨ (k / 2 = l / 2 ∧ k % 2 < l % 2)) with h2 | ⟨h2, h3⟩
      · have := ih (mask / 2) (by omega) (k / 2) (l / 2) h2 (by omega)
        omega
      · rw [h2]
        omega
    · rw [pdep_even mask k h0 h1, pdep_even mask l h0 h1]
      rw [popcountM_even mask h0 h1] at hl
      have := ih (mask / 2) (by omega) k l hkl hl
      omega

theorem pdep_surj (mask : Nat) : ∀ b, b &&& mask = b →
    ∃ k, k < 2 ^ popcountM mask ∧ pdep mask k = b := by
  induction mask using Nat.strong_induction_on with
  | _ mask ih =>
    intro b hb
    by_cases h0 : mask = 0
    · subst h0
      refine ⟨0, by simp [popcountM_zero], ?_⟩
      rw [pdep_zero]
      have hbz : b = 0 := by simpa using hb.symm
      omega
    obtain ⟨hhi, hlo⟩ := subset_split mask b hb
    obtain ⟨k', hk', hpk⟩ := ih (mask / 2) (by omega) (b / 2) hhi
    rcases (by omega : mask % 2 = 1 ∨ mask % 2 = 0) with h1 | h1
    · refine ⟨2 * k' + b % 2, ?_, ?_⟩
      · rw [popcountM_odd mask h0 h1, pow_succ]
        omega
      · rw [pdep_odd mask _ h0 h1, two_mul_add_div_two _ _ (by omega),
          two_mul_add_mod_two _ _ (by omega), hpk]
        omega
    · have hb0 : b % 2 = 0 := by omega
      refine ⟨k', ?_, ?_⟩
      · rw [popcountM_even mask h0 h1]
        exact hk'
      · rw [pdep_even mask _ h0 h1, hpk]
        omega

theorem sub_subset_land (m : Nat) : ∀ b, b &&& m = b → (m - b) &&& m = m - b := by
  induction m using Nat.strong_induction_on with
  | _ m ih =>
    intro b hb
    by_cases h0 : m = 0
    · subst h0
      simp
    obtain ⟨hhi, hlo⟩ := subset_split m b hb
    have hble : b / 2 ≤ m / 2 := by
      conv_lhs => rw [← hhi]
      exact Nat.and_le_right
    have hsub : m - b = 2 * (m / 2 - b / 2) + (m % 2 - b % 2) := by omega
    have hd : (m / 2 - b / 2) &&& (m / 2) = m / 2 - b / 2 := ih (m / 2) (by omega) (b / 2) hhi
    rw [hsub]
    have key := land_bit (m / 2 - b / 2) (m / 2) (m % 2 - b % 2) (m % 2) (by omega) (by omega)
    rw [Nat.div_add_mod m 2] at key
    rw [key, hd]
    rcases (by omega : m % 2 = 0 ∨ m % 2 = 1) with h2 | h2 <;> rw [h2] <;> simp <;> omega

/-- Complement inside a window, intersected with a mask containing `c`:
exactly the mask minus `c`. -/
theorem not_land (m : Nat) : ∀ V c, m < 2 ^ V → c &&& m = c →
    (2 ^ V - 1 - c) &&& m = m - c := by
  induction m using Nat.strong_induction_on with
  | _ m ih =>
    intro V c hm hc
    by_cases h0 : m = 0
    · subst h0
      simp
    obtain ⟨hhi, hlo⟩ := subset_split m c hc
    have hcle : c ≤ m := by
      conv_lhs => rw [← hc]
      exact Nat.and_le_right
    obtain ⟨V', rfl⟩ : ∃ V', V = V' + 1 := by
      cases V with
      | zero =>
        exfalso
        simp at hm
        omega
      | succ V' => exact ⟨V', rfl⟩
    have hm' : m / 2 < 2 ^ V' := by
      rw [pow_succ] at hm
      omega
    have hc' : c / 2 ≤ 2 ^ V' - 1 := by
      have : c / 2 ≤ m / 2 := by
        conv_lhs => rw [← hhi]
        exact Nat.and_le_right
      omega
    have hsplit : 2 ^ (V' + 1) - 1 - c = 2 * (2 ^ V' - 1 - c / 2) + (1 - c % 2) := by
      rw [pow_succ]
      omega
    rw [hsplit]
    have key := land_bit (2 ^ V' - 1 - c / 2) (m / 2) (1 - c % 2) (m % 2) (by omega) (by omega)
    rw [Nat.div_add_mod m 2] at key
    rw [key, ih (m / 2) (by omega) V' (c / 2) hm' hhi]
    rcases (by omega : m % 2 = 0 ∨ m % 2 = 1) with h2 | h2 <;>
      rcases (by omega : c % 2 = 0 ∨ c % 2 = 1) with h3 | h3 <;> rw [h2, h3] <;> simp <;> omega

/-- The key Carry-Rippler step identity: from the `k`-th subset of `mask`, the
wraparound subtraction-and-mask produces the `k+1`-st subset. -/
theorem pdep_next (mask : Nat) : ∀ W k, mask < 2 ^ W → k + 1 < 2 ^ popcountM mask →
    (2 ^ W - (mask - pdep mask k)) &&& mask = pdep mask (k + 1) := by
  induction mask using Nat.strong_induction_on with
  | _ mask ih =>
    intro W k hW hk
    by_cases h0 : mask = 0
    · subst h0
      rw [popcountM_zero] at hk
      omega
    obtain ⟨W', rfl⟩ : ∃ W', W = W' + 1 := by
      cases W with
      | zero =>
        exfalso
        simp at hW
        omega
      | succ W' => exact ⟨W', rfl⟩
    have hWm : mask / 2 < 2 ^ W' := by
      rw [pow_succ] at hW
      omega
    rcases (by omega : mask % 2 = 1 ∨ mask % 2 = 0) with h1 | h1
    · -- odd mask: low bit of the mask is relevant
      rw [popcountM_odd mask h0 h1] at hk
      have hk2 : k / 2 < 2 ^ popcountM (mask / 2) := by
        rw [pow_succ] at hk
        omega
      have hple : pdep (mask / 2) (k / 2) ≤ mask / 2 := pdep_le _ _
      rcases (by omega : k % 2 = 0 ∨ k % 2 = 1) with h2 | h2
      · -- even k: adding one only sets the low bit
        rw [pdep_odd mask k h0 h1, pdep_odd mask (k + 1) h0 h1, h2,
          show (k + 1) % 2 = 1 by omega, show (k + 1) / 2 = k / 2 by omega]
        have hc : mask - (2 * pdep (mask / 2) (k / 2) + 0) =
            2 * (mask / 2 - pdep (mask / 2) (k / 2)) + 1 := by omega
        rw [hc]
        have hsplit : 2 ^ (W' + 1) - (2 * (mask / 2 - pdep (mask / 2) (k / 2)) + 1) =
            2 * (2 ^ W' - 1 - (mask / 2 - pdep (mask / 2) (k / 2))) + 1 := by
          rw [pow_succ]
          omega
        rw [hsplit]
        have key := land_bit (2 ^ W' - 1 - (mask / 2 - pdep (mask / 2) (k / 2))) (mask / 2)
          1 (mask % 2) (by omega) (by omega)
        rw [Nat.div_add_mod mask 2] at key
        rw [key]
        rw [not_land (mask / 2) W' (mask / 2 - pdep (mask / 2) (k / 2)) hWm
          (sub_subset_land (mask / 2) (pdep (mask / 2) (k / 2)) (pdep_land _ _))]
        rw [h1]
        omega
      · -- odd k: the carry ripples into the higher mask bits
        rw [pdep_odd mask k h0 h1, pdep_odd mask (k + 1) h0 h1, h2,
          show (k + 1) % 2 = 0 by omega, show (k + 1) / 2 = k / 2 + 1 by omega]
        have hc : mask - (2 * pdep (mask / 2) (k / 2) + 1) =
            2 * (mask / 2 - pdep (mask / 2) (k / 2)) := by omega
        rw [hc]
        have hsplit : 2 ^ (W' + 1) - 2 * (mask / 2 - pdep (mask / 2) (k / 2)) =
            2 * (2 ^ W' - (mask / 2 - pdep (mask / 2) (k / 2))) := by
          rw [pow_succ]
          omega
        rw [hsplit]
        have key := land_bit0 (2 ^ W' - (mask / 2 - pdep (mask / 2) (k / 2))) (mask / 2)
          (mask % 2) (by omega)
        rw [Nat.div_add_mod mask 2] at key
        rw [key]
        rw [ih (mask / 2) (by omega) W' (k / 2) hWm (by rw [pow_succ] at hk; omega)]
        omega
    · -- even mask: everything happens in the high bits
      rw [popcountM_even mask h0 h1] at hk
      rw [pdep_even mask k h0 h1, pdep_even mask (k + 1) h0 h1]
      have hple : pdep (mask / 2) k ≤ mask / 2 := pdep_le _ _
      have hc : mask - 2 * pdep (mask / 2) k = 2 * (mask / 2 - pdep (mask / 2) k) := by omega
      rw [hc]
      have hsplit : 2 ^ (W' + 1) - 2 * (mask / 2 - pdep (mask / 2) k) =
          2 * (2 ^ W' - (mask / 2 - pdep (mask / 2) k)) := by
        rw [pow_succ]
        omega
      rw [hsplit]
      have key := land_bit0 (2 ^ W' - (mask / 2 - pdep (mask / 2) k)) (mask / 2)
        (mask % 2) (by omega)
      rw [Nat.div_add_mod mask 2] at key
      rw [key]
      rw [ih (mask / 2) (by omega) W' k hWm hk]

theorem pdep_max (mask : Nat) : pdep mask (2 ^ popcountM mask - 1) = mask := by
  induction mask using Nat.strong_induction_on with
  | _ mask ih =>
    by_cases h0 : mask = 0
    · subst h0
      rw [popcountM_zero]
      simp [pdep_zero_mask]
    rcases (by omega : mask % 2 = 1 ∨ mask % 2 = 0) with h1 | h1
    · rw [pdep_odd mask _ h0 h1, popcountM_odd mask h0 h1, pow_succ]
      have h2 : 0 < 2 ^ popcountM (mask / 2) := Nat.pos_pow_of_pos _ (by omega)
      have h3 : (2 ^ popcountM (mask / 2) * 2 - 1) / 2 = 2 ^ popcountM (mask / 2) - 1 := by omega
      have h4 : (2 ^ popcountM (mask / 2) * 2 - 1) % 2 = 1 := by omega
      rw [h3, h4, ih (mask / 2) (by omega)]
      omega
    · rw [pdep_even mask _ h0 h1, popcountM_even mask h0 h1, ih (mask / 2) (by omega)]
      omega

/-! ## The Carry-Rippler cycle -/

theorem nextSubset_pdep (mask k : Nat) (hm : mask < 2 ^ 64) (hk : k + 1 < 2 ^ popcountM mask) :
    nextSubset mask (pdep mask k) = pdep mask (k + 1) := by
  unfold nextSubset
  have hple : pdep mask k ≤ mask := pdep_le _ _
  have h1 : pdep mask k + 2 ^ 64 - mask = 2 ^ 64 - (mask - pdep mask k) := by omega
  rw [h1, land_mod_pow _ _ _ hm]
  exact pdep_next mask 64 k hm hk

theorem nextSubset_mask (mask : Nat) (hm : mask < 2 ^ 64) : nextSubset mask mask = 0 := by
  unfold nextSubset
  have h1 : mask + 2 ^ 64 - mask = 2 ^ 64 := by omega
  rw [h1]
  simp

theorem iterate_pdep (mask : Nat) (hm : mask < 2 ^ 64) :
    ∀ k, k < 2 ^ popcountM mask → (nextSubset mask)^[k] 0 = pdep mask k := by
  intro k
  induction k with
  | zero =>
    intro _
    rw [Function.iterate_zero_apply, pdep_zero]
  | succ j ih =>
    intro hj
    rw [Function.iterate_succ_apply', ih (by omega), nextSubset_pdep mask j hm hj]

theorem iterate_pdep_cycle (mask : Nat) (hm : mask < 2 ^ 64) :
    (nextSubset mask)^[2 ^ popcountM mask] 0 = 0 := by
  have hpos : 0 < 2 ^ popcountM mask := Nat.pos_pow_of_pos _ (by omega)
  obtain ⟨n, hn⟩ : ∃ n, 2 ^ popcountM mask = n + 1 := ⟨2 ^ popcountM mask - 1, by omega⟩
  rw [hn, Function.iterate_succ_apply', iterate_pdep mask hm n (by omega),
    show n = 2 ^ popcountM mask - 1 by omega, pdep_max, nextSubset_mask mask hm]

/-! ## Structure of the enumerated list -/

theorem subsetsFrom_length (mask : Nat) : ∀ n b, (subsetsFrom mask n b).length = n := by
  intro n
  induction n with
  | zero =>
    intro b
    rfl
  | succ j ih =>
    intro b
    simp [subsetsFrom, ih]

theorem subsetsFrom_eq_map (mask : Nat) :
    ∀ n b, subsetsFrom mask n b = (List.range n).map fun i => (nextSubset mask)^[i] b := by
  intro n
  induction n with
  | zero =>
    intro b
    rfl
  | succ j ih =>
    intro b
    show b :: subsetsFrom mask j (nextSubset mask b) = _
    rw [ih (nextSubset mask b), List.range_succ_eq_map, List.map_cons, List.map_map]
    congr 1

theorem subsetList_eq_map (mask : Nat) (hm : mask < 2 ^ 64) :
    subsetList mask = (List.range (2 ^ popcountM mask)).map (pdep mask) := by
  unfold subsetList
  rw [popcount_eq mask hm, subsetsFrom_eq_map]
  apply List.map_congr_left
  intro i hi
  exact iterate_pdep mask hm i (List.mem_range.mp hi)

theorem subsetList_nodup (mask : Nat) (hm : mask < 2 ^ 64) : (subsetList mask).Nodup := by
  rw [subsetList_eq_map mask hm]
  apply List.Nodup.map_on
  · intro k hk l hl hkl
    rcases Nat.lt_trichotomy k l with h | h | h
    · have := pdep_lt_pdep mask k l h (List.mem_range.mp hl)
      omega
    · exact h
    · have := pdep_lt_pdep mask l k h (List.mem_range.mp hk)
      omega
  · exact List.nodup_range _

theorem subsetList_mem_iff (mask : Nat) (hm : mask < 2 ^ 64) :
    ∀ b, b ∈ subsetList mask ↔ b &&& mask = b := by
  intro b
  rw [subsetList_eq_map mask hm]
  constructor
  · intro hb
    obtain ⟨k, _, rfl⟩ := List.mem_map.mp hb
    exact pdep_land mask k
  · intro hb
    obtain ⟨k, hk, rfl⟩ := pdep_surj mask b hb
    exact List.mem_map.mpr ⟨k, List.mem_range.mpr hk, rfl⟩


/-! ## Computable bit deposit agrees with the mathematical one -/

theorem pdepF_eq (f : Nat) : ∀ mask k, mask < 2 ^ f → pdepF f mask k = pdep mask k := by
  induction f with
  | zero =>
    intro mask k hm
    have : mask = 0 := by omega
    subst this
    rw [pdep_zero_mask]
    rfl
  | succ g ih =>
    intro mask k hm
    by_cases h0 : mask = 0
    · subst h0
      rw [pdep_zero_mask]
      simp [pdepF]
    have hm2 : mask / 2 < 2 ^ g := by
      rw [pow_succ] at hm
      omega
    rcases (by omega : mask % 2 = 1 ∨ mask % 2 = 0) with h1 | h1
    · rw [pdep_odd mask k h0 h1]
      have hpf : pdepF (g + 1) mask k = 2 * pdepF g (mask / 2) (k / 2) + k % 2 := by
        simp only [pdepF]
        rw [if_neg h0, if_pos h1]
      rw [hpf, ih (mask / 2) (k / 2) hm2]
    · rw [pdep_even mask k h0 h1]
      have hpf : pdepF (g + 1) mask k = 2 * pdepF g (mask / 2) k := by
        simp only [pdepF]
        rw [if_neg h0, if_neg (by omega : ¬mask % 2 = 1)]
      rw [hpf, ih (mask / 2) k hm2]

/-- Running the Carry-Rippler step `t` times from the `a`-th subset lands on
the `a+t`-th subset. -/
theorem iterate_from (mask : Nat) (hm : mask < 2 ^ 64) :
    ∀ t a, a + t < 2 ^ popcountM mask → (nextSubset mask)^[t] (pdep mask a) = pdep mask (a + t) := by
  intro t
  induction t with
  | zero =>
    intro a _
    rfl
  | succ u ih =>
    intro a ha
    rw [Function.iterate_succ_apply', ih a (by omega), nextSubset_pdep mask (a + u) hm (by omega)]
    congr 1

/-! ## Bit-level helpers for the seen-set bookkeeping -/

theorem one_shiftLeft_testBit (i j : Nat) : (1 <<< i).testBit j = decide (i = j) := by
  rw [Nat.shiftLeft_eq, one_mul]
  exact Nat.testBit_two_pow

theorem testBit_land_ne_zero {a : Nat} {j : Nat} (ha : a.testBit j = true) {b : Nat}
    (hb : b.testBit j = true) : a &&& b ≠ 0 := by
  intro h
  have : (a &&& b).testBit j = true := by
    rw [Nat.testBit_and, ha, hb]
    rfl
  rw [h] at this
  simp at this

/-! ## Soundness of the segment chain and the segment tree -/

theorem segChain_sound (rmask magic bits : Nat) :
    ∀ n c seen out, segChain rmask magic bits n c seen = some out →
      (∀ t, t < n → out.testBit (idxStep magic bits ((nextSubset rmask)^[t] c)) = true) ∧
      (∀ t, t < n → seen.testBit (idxStep magic bits ((nextSubset rmask)^[t] c)) = false) ∧
      (∀ t1 t2, t1 < t2 → t2 < n → idxStep magic bits ((nextSubset rmask)^[t1] c) ≠
        idxStep magic bits ((nextSubset rmask)^[t2] c)) ∧
      (∀ j, seen.testBit j = true → out.testBit j = true) := by
  intro n
  induction n with
  | zero =>
    intro c seen out hout
    have : seen = out := by
      simpa [segChain] using hout
    subst this
    exact ⟨fun t ht => by omega, fun t ht => by omega, fun t1 t2 h1 h2 => by omega,
      fun j hj => hj⟩
  | succ m ih =>
    intro c seen out hout
    rw [segChain] at hout
    by_cases hg : seen.testBit (idxStep magic bits c) = true
    · rw [if_pos hg] at hout
      cases hout
    rw [if_neg hg] at hout
    have hgf : seen.testBit (idxStep magic bits c) = false := by
      cases h : seen.testBit (idxStep magic bits c)
      · rfl
      · exact absurd h hg
    obtain ⟨hmem, hfresh, hdist, hsub⟩ := ih (nextSubset rmask c)
      (seen ||| 1 <<< idxStep magic bits c) out hout
    have hshift : ∀ t, (nextSubset rmask)^[t] (nextSubset rmask c) =
        (nextSubset rmask)^[t + 1] c := by
      intro t
      rw [Function.iterate_succ_apply]
    have hseenbit : (seen ||| 1 <<< idxStep magic bits c).testBit (idxStep magic bits c) = true := by
      rw [Nat.testBit_or, one_shiftLeft_testBit]
      simp
    refine ⟨?_, ?_, ?_, ?_⟩
    · intro t ht
      cases t with
      | zero =>
        exact hsub _ hseenbit
      | succ u =>
        rw [← hshift u]
        exact hmem u (by omega)
    · intro t ht
      cases t with
      | zero =>
        exact hgf
      | succ u =>
        have := hfresh u (by omega)
        rw [hshift u] at this
        rw [Nat.testBit_or] at this
        cases h : seen.testBit (idxStep magic bits ((nextSubset rmask)^[u + 1] c))
        · rfl
        · rw [h] at this
          simp at this
    · intro t1 t2 h1 h2
      cases t1 with
      | zero =>
        cases t2 with
        | zero => omega
        | succ u =>
          intro heq
          simp only [Function.iterate_zero_apply] at heq
          have hthis := hfresh u (by omega)
          rw [hshift u, ← heq] at hthis
          rw [hseenbit] at hthis
          cases hthis
      | succ u1 =>
        cases t2 with
        | zero => omega
        | succ u2 =>
          have := hdist u1 u2 (by omega) (by omega)
          rw [hshift u1, hshift u2] at this
          exact this
    · intro j hj
      apply hsub
      rw [Nat.testBit_or, hj]
      rfl

theorem combineSeen_some (a b out : Option Nat) (h : combineSeen a b = out) (ho : out.isSome) :
    ∃ x y, a = some x ∧ b = some y ∧ x &&& y = 0 ∧ out = some (x ||| y) := by
  cases a with
  | none =>
    subst h
    simp [combineSeen] at ho
  | some x =>
    cases b with
    | none =>
      subst h
      simp [combineSeen] at ho
    | some y =>
      rw [combineSeen] at h
      by_cases hxy : x &&& y = 0
      · rw [if_pos hxy] at h
        exact ⟨x, y, rfl, rfl, hxy, h.symm⟩
      · rw [if_neg hxy] at h
        subst h
        simp at ho

theorem segTree_sound (rmask magic bits : Nat) (hm : rmask < 2 ^ 64) :
    ∀ h j out, segTree rmask magic bits h j = some out →
      64 * 2 ^ h * (j + 1) ≤ 2 ^ popcountM rmask →
      (∀ k, 64 * 2 ^ h * j ≤ k → k < 64 * 2 ^ h * (j + 1) →
        out.testBit (idxStep magic bits (pdep rmask k)) = true) ∧
      (∀ k1 k2, 64 * 2 ^ h * j ≤ k1 → k1 < k2 → k2 < 64 * 2 ^ h * (j + 1) →
        idxStep magic bits (pdep rmask k1) ≠ idxStep magic bits (pdep rmask k2)) := by
  intro h
  induction h with
  | zero =>
    intro j out hout hrange
    rw [segTree, pdepF_eq 64 rmask (64 * j) hm] at hout
    obtain ⟨hmem, _, hdist, _⟩ := segChain_sound rmask magic bits 64 (pdep rmask (64 * j)) 0 out hout
    simp only [pow_zero, mul_one] at hrange ⊢
    have hiter : ∀ t, t < 64 → (nextSubset rmask)^[t] (pdep rmask (64 * j)) =
        pdep rmask (64 * j + t) := by
      intro t ht
      exact iterate_from rmask hm t (64 * j) (by omega)
    constructor
    · intro k hk1 hk2
      have := hmem (k - 64 * j) (by omega)
      rw [hiter (k - 64 * j) (by omega), show 64 * j + (k - 64 * j) = k by omega] at this
      exact this
    · intro k1 k2 hk1 hk12 hk2
      have := hdist (k1 - 64 * j) (k2 - 64 * j) (by omega) (by omega)
      rw [hiter (k1 - 64 * j) (by omega), hiter (k2 - 64 * j) (by omega),
        show 64 * j + (k1 - 64 * j) = k1 by omega,
        show 64 * j + (k2 - 64 * j) = k2 by omega] at this
      exact this
  | succ g ih =>
    intro j out hout hrange
    rw [segTree] at hout
    obtain ⟨x, y, hx, hy, hxy, hxyout⟩ := combineSeen_some _ _ _ hout rfl
    have houtxy : out = x ||| y := by injection hxyout
    subst houtxy
    have p1 : 64 * 2 ^ g * (2 * j) = 2 * (64 * 2 ^ g * j) := by ring
    have p2 : 64 * 2 ^ g * (2 * j + 1) = 2 * (64 * 2 ^ g * j) + 64 * 2 ^ g := by ring
    have p3 : 64 * 2 ^ g * (2 * j + 1 + 1) = 2 * (64 * 2 ^ g * j) + 2 * (64 * 2 ^ g) := by ring
    have p4 : 64 * 2 ^ (g + 1) * j = 2 * (64 * 2 ^ g * j) := by
      rw [pow_succ]
      ring
    have p5 : 64 * 2 ^ (g + 1) * (j + 1) = 2 * (64 * 2 ^ g * j) + 2 * (64 * 2 ^ g) := by
      rw [pow_succ]
      ring
    rw [p5] at hrange
    have hxr : 64 * 2 ^ g * (2 * j + 1) ≤ 2 ^ popcountM rmask := by
      rw [p2]
      omega
    have hyr : 64 * 2 ^ g * (2 * j + 1 + 1) ≤ 2 ^ popcountM rmask := by
      rw [p3]
      omega
    obtain ⟨hxmem, hxdist⟩ := ih (2 * j) x hx hxr
    obtain ⟨hymem, hydist⟩ := ih (2 * j + 1) y hy hyr
    have hsplitk : ∀ k, 64 * 2 ^ (g + 1) * j ≤ k → k < 64 * 2 ^ (g + 1) * (j + 1) →
        (64 * 2 ^ g * (2 * j) ≤ k ∧ k < 64 * 2 ^ g * (2 * j + 1)) ∨
        (64 * 2 ^ g * (2 * j + 1) ≤ k ∧ k < 64 * 2 ^ g * (2 * j + 1 + 1)) := by
      intro k h1 h2
      rw [p4] at h1
      rw [p5] at h2
      rw [p1, p2, p3]
      omega
    constructor
    · intro k hk1 hk2
      rw [Nat.testBit_or]
      rcases hsplitk k hk1 hk2 with ⟨ha, hb⟩ | ⟨ha, hb⟩
      · rw [hxmem k ha hb]
        rfl
      · rw [hymem k ha hb]
        simp
    · intro k1 k2 hk1 hk12 hk2
      rcases hsplitk k1 hk1 (by omega) with ⟨ha1, hb1⟩ | ⟨ha1, hb1⟩ <;>
        rcases hsplitk k2 (by omega) hk2 with ⟨ha2, hb2⟩ | ⟨ha2, hb2⟩
      · exact hxdist k1 k2 ha1 hk12 hb2
      · intro heq
        exact testBit_land_ne_zero (hxmem k1 ha1 hb1) (heq ▸ hymem k2 ha2 hb2) hxy
      · omega
      · exact hydist k1 k2 ha1 hk12 hb2

/-- Soundness of the per-square check: a successful `magicOK` means the index
function is injective across the full Carry-Rippler numbering of the
(reversed) mask. -/
theorem magicOK_sound (mask magic bits : Nat) (hm : mask < 2 ^ 64)
    (hrm : bitrev64 mask < 2 ^ 64) (hchk : magicOK mask magic bits = true) :
    ∀ k1 k2, k1 < k2 → k2 < 2 ^ popcountM (bitrev64 mask) →
      idxStep magic bits (pdep (bitrev64 mask) k1) ≠
        idxStep magic bits (pdep (bitrev64 mask) k2) := by
  intro k1 k2 hk12 hk2
  rw [magicOK] at hchk
  simp only [popcount_eq (bitrev64 mask) hrm] at hchk
  by_cases hpc : popcountM (bitrev64 mask) ≤ 6
  · rw [if_pos hpc] at hchk
    obtain ⟨out, hout⟩ := Option.isSome_iff_exists.mp hchk
    obtain ⟨_, _, hdist, _⟩ := segChain_sound (bitrev64 mask) magic bits
      (2 ^ popcountM (bitrev64 mask)) 0 0 out hout
    have h0 : (0 : Nat) = pdep (bitrev64 mask) 0 := (pdep_zero _).symm
    rw [h0] at hdist
    have e1 := iterate_from (bitrev64 mask) hrm k1 0 (by omega)
    have e2 := iterate_from (bitrev64 mask) hrm k2 0 (by omega)
    simp only [Nat.zero_add] at e1 e2
    have := hdist k1 k2 hk12 hk2
    rw [e1, e2] at this
    exact this
  · rw [if_neg hpc] at hchk
    obtain ⟨out, hout⟩ := Option.isSome_iff_exists.mp hchk
    have hrange : 64 * 2 ^ (popcountM (bitrev64 mask) - 6) * (0 + 1) ≤
        2 ^ popcountM (bitrev64 mask) := by
      have : (64 : Nat) * 2 ^ (popcountM (bitrev64 mask) - 6) = 2 ^ popcountM (bitrev64 mask) := by
        rw [show (64 : Nat) = 2 ^ 6 by norm_num, ← pow_add]
        congr 1
        omega
      omega
    obtain ⟨_, hdist⟩ := segTree_sound (bitrev64 mask) magic bits hrm
      (popcountM (bitrev64 mask) - 6) 0 out hout hrange
    apply hdist k1 k2 (by omega) hk12
    have : (64 : Nat) * 2 ^ (popcountM (bitrev64 mask) - 6) = 2 ^ popcountM (bitrev64 mask) := by
      rw [show (64 : Nat) = 2 ^ 6 by norm_num, ← pow_add]
      congr 1
      omega
    omega

/-! ## Bit reversal: characterisation and consequences -/

theorem revM_lt (f : Nat) : ∀ x, revM f x < 2 ^ f := by
  induction f with
  | zero =>
    intro x
    simp [revM]
  | succ g ih =>
    intro x
    have h1 := ih (x / 2)
    rcases (by omega : x % 2 = 0 ∨ x % 2 = 1) with h | h <;>
      simp only [revM, h, pow_succ] <;> omega

theorem revM_testBit (f : Nat) : ∀ x j, x < 2 ^ f →
    (revM f x).testBit j = if j < f then x.testBit (f - 1 - j) else false := by
  induction f with
  | zero =>
    intro x j hx
    have hx0 : x = 0 := by omega
    subst hx0
    simp [revM]
  | succ g ih =>
    intro x j hx
    have hlt := revM_lt g (x / 2)
    have hx2 : x / 2 < 2 ^ g := by
      rw [pow_succ] at hx
      omega
    have he : revM (g + 1) x = 2 ^ g * (x % 2) + revM g (x / 2) := by
      simp only [revM]
      ring
    rw [he, Nat.testBit_mul_pow_two_add _ hlt j]
    rcases Nat.lt_trichotomy j g with h | h | h
    · rw [if_pos h, if_pos (by omega : j < g + 1), ih (x / 2) j hx2, if_pos h,
        Nat.testBit_div_two]
      congr 1
      omega
    · subst h
      rw [if_neg (by omega), if_pos (by omega)]
      have e0 : j - j = 0 := by omega
      have e1 : j + 1 - 1 - j = 0 := by omega
      rw [e0, e1, Nat.testBit_zero, Nat.testBit_zero]
      have e2 : (x % 2 % 2 = 1) = (x % 2 = 1) := propext (by omega)
      simp only [e2]
    · rw [if_neg (by omega), if_neg (by omega)]
      apply Nat.testBit_lt_two_pow
      calc x % 2 < 2 ^ 1 := by omega
        _ ≤ 2 ^ (j - g) := Nat.pow_le_pow_right (by omega) (by omega)

theorem revM_revM (f x : Nat) (hx : x < 2 ^ f) : revM f (revM f x) = x := by
  apply Nat.eq_of_testBit_eq
  intro j
  rw [revM_testBit f _ j (revM_lt f x)]
  by_cases h : j < f
  · rw [if_pos h, revM_testBit f x _ hx, if_pos (by omega)]
    congr 1
    omega
  · rw [if_neg h]
    exact (Nat.testBit_lt_two_pow (lt_of_lt_of_le hx
      (Nat.pow_le_pow_right (by omega) (by omega)))).symm

theorem bitrev64_lt (x : Nat) : bitrev64 x < 2 ^ 64 := revM_lt 64 x

theorem bitrev64_inj (x y : Nat) (hx : x < 2 ^ 64) (hy : y < 2 ^ 64)
    (h : bitrev64 x = bitrev64 y) : x = y := by
  have h2 := congrArg bitrev64 h
  rwa [show bitrev64 (bitrev64 x) = x from revM_revM 64 x hx,
    show bitrev64 (bitrev64 y) = y from revM_revM 64 y hy] at h2

theorem bitrev64_subset (b m : Nat) (hm : m < 2 ^ 64) (hbm : b &&& m = b) :
    bitrev64 b &&& bitrev64 m = bitrev64 b := by
  have hble : b ≤ m := by
    rw [← hbm]
    exact Nat.and_le_right
  have hb : b < 2 ^ 64 := lt_of_le_of_lt hble hm
  have hbits : ∀ i, (b.testBit i && m.testBit i) = b.testBit i := by
    intro i
    rw [← Nat.testBit_and, hbm]
  apply Nat.eq_of_testBit_eq
  intro j
  rw [Nat.testBit_and]
  unfold bitrev64
  rw [revM_testBit 64 b j hb, revM_testBit 64 m j hm]
  by_cases h : j < 64
  · rw [if_pos h, if_pos h]
    exact hbits _
  · rw [if_neg h]
    rfl

/-! ## From the checker to injectivity of the index map -/

theorem magic_index_eq_idxStep (mask magic bits b : Nat) (hb : b &&& mask = b) :
    magic_index mask magic bits b = idxStep magic bits (bitrev64 b) := by
  unfold magic_index idxStep
  rw [hb]

theorem idxStep_ne_of_subsets (mask magic bits : Nat) (hm : mask < 2 ^ 64)
    (hchk : magicOK mask magic bits = true) (c1 c2 : Nat)
    (h1 : c1 &&& bitrev64 mask = c1) (h2 : c2 &&& bitrev64 mask = c2) (hne : c1 ≠ c2) :
    idxStep magic bits c1 ≠ idxStep magic bits c2 := by
  obtain ⟨k1, hk1, rfl⟩ := pdep_surj _ c1 h1
  obtain ⟨k2, hk2, rfl⟩ := pdep_surj _ c2 h2
  have hkne : k1 ≠ k2 := by
    rintro rfl
    exact hne rfl
  rcases Nat.lt_trichotomy k1 k2 with h | h | h
  · exact magicOK_sound mask magic bits hm (bitrev64_lt mask) hchk k1 k2 h hk2
  · exact absurd h hkne
  · exact (magicOK_sound mask magic bits hm (bitrev64_lt mask) hchk k2 k1 h hk1).symm

theorem map_index_nodup (mask magic bits : Nat) (hm : mask < 2 ^ 64)
    (hchk : magicOK mask magic bits = true) :
    ((subsetList mask).map (magic_index mask magic bits)).Nodup := by
  rw [subsetList_eq_map mask hm, List.map_map]
  apply List.Nodup.map_on ?_ (List.nodup_range _)
  intro k hk l hl heq
  by_contra hne
  have hbne : pdep mask k ≠ pdep mask l := by
    rcases Nat.lt_trichotomy k l with h | h | h
    · have := pdep_lt_pdep mask k l h (List.mem_range.mp hl)
      omega
    · exact absurd h hne
    · have := pdep_lt_pdep mask l k h (List.mem_range.mp hk)
      omega
  have hsub1 := pdep_land mask k
  have hsub2 := pdep_land mask l
  have hlt1 : pdep mask k < 2 ^ 64 := lt_of_le_of_lt (pdep_le _ _) hm
  have hlt2 : pdep mask l < 2 ^ 64 := lt_of_le_of_lt (pdep_le _ _) hm
  have hcne : bitrev64 (pdep mask k) ≠ bitrev64 (pdep mask l) := by
    intro hc
    exact hbne (bitrev64_inj _ _ hlt1 hlt2 hc)
  apply idxStep_ne_of_subsets mask magic bits hm hchk _ _
    (bitrev64_subset _ _ hm hsub1) (bitrev64_subset _ _ hm hsub2) hcne
  simp only [Function.comp] at heq
  rw [magic_index_eq_idxStep mask magic bits _ hsub1,
    magic_index_eq_idxStep mask magic bits _ hsub2] at heq
  exact heq

/-! ## Index range -/

theorem magic_index_lt (mask magic bits occ : Nat) (hbits : bits ≤ 64) :
    magic_index mask magic bits occ < 2 ^ bits := by
  unfold magic_index
  rw [Nat.shiftRight_eq_div_pow]
  have h1 : (bitrev64 (occ &&& mask) * magic) % 2 ^ 64 < 2 ^ 64 :=
    Nat.mod_lt _ (Nat.pos_pow_of_pos _ (by omega))
  apply Nat.div_lt_of_lt_mul
  calc (bitrev64 (occ &&& mask) * magic) % 2 ^ 64 < 2 ^ 64 := h1
    _ = 2 ^ (64 - bits) * 2 ^ bits := by
        rw [← pow_add]
        congr 1
        omega

/-! ## Boundedness of the attack boards -/

theorem safe_destination_cases (s : Nat) (d : Int) (h : safe_destination s d ≠ 0) :
    0 ≤ (s : Int) + d ∧ (s : Int) + d ≤ 63 ∧ distance s ((s : Int) + d).toNat ≤ 2 ∧
      safe_destination s d = square_bb ((s : Int) + d).toNat := by
  by_cases hc : 0 ≤ (s : Int) + d ∧ (s : Int) + d ≤ 63 ∧ distance s ((s : Int) + d).toNat ≤ 2
  · refine ⟨hc.1, hc.2.1, hc.2.2, ?_⟩
    simp only [safe_destination]
    rw [if_pos hc]
  · exfalso
    apply h
    simp only [safe_destination]
    rw [if_neg hc]

theorem square_bb_lt (s : Nat) (hs : s ≤ 63) : square_bb s < 2 ^ 64 := by
  rw [square_bb, Nat.shiftLeft_eq, one_mul]
  exact lt_of_le_of_lt (Nat.pow_le_pow_right (by omega) hs)
    (Nat.pow_lt_pow_right (by omega) (by omega))

theorem walk_lt (occ : Nat) (d : Int) : ∀ fuel s, walk occ d fuel s < 2 ^ 64 := by
  intro fuel
  induction fuel with
  | zero =>
    intro s
    simp [walk]
  | succ g ih =>
    intro s
    rw [walk]
    by_cases hg : safe_destination s d ≠ 0 ∧ occ &&& square_bb s = 0
    · rw [if_pos hg]
      obtain ⟨h0, h63, _, _⟩ := safe_destination_cases s d hg.1
      apply Nat.or_lt_two_pow
      · exact square_bb_lt _ (by omega)
      · exact ih _
    · rw [if_neg hg]
      exact Nat.pos_pow_of_pos _ (by omega)

theorem sliding_attack_lt (pt : PieceType) (sq occ : Nat) : sliding_attack pt sq occ < 2 ^ 64 := by
  cases pt <;> simp only [sliding_attack] <;>
    exact Nat.or_lt_two_pow (Nat.or_lt_two_pow (Nat.or_lt_two_pow (walk_lt _ _ _ _)
      (walk_lt _ _ _ _)) (walk_lt _ _ _ _)) (walk_lt _ _ _ _)

theorem maskOf_lt (pt : PieceType) (s : Nat) : maskOf pt s < 2 ^ 64 :=
  lt_of_le_of_lt Nat.and_le_left (sliding_attack_lt pt s 0)

/-! ## The table writes -/

theorem updF_same (t : Nat → Nat) (k v : Nat) : updF t k v k = v := by
  simp [updF]

theorem updF_other (t : Nat → Nat) (k v x : Nat) (h : x ≠ k) : updF t k v x = t x := by
  simp [updF, h]

theorem foldl_updF_not_mem (f g : Nat → Nat) (l : List Nat) (t : Nat → Nat) (k : Nat)
    (h : ∀ a ∈ l, f a ≠ k) :
    (l.foldl (fun t b => updF t (f b) (g b)) t) k = t k := by
  induction l generalizing t with
  | nil => rfl
  | cons x xs ih =>
    rw [List.foldl_cons, ih _ fun a ha => h a (List.mem_cons_of_mem x ha)]
    exact updF_other t (f x) (g x) k (h x (List.mem_cons_self x xs)).symm

theorem foldl_updF_mem (f g : Nat → Nat) (l : List Nat) (hnd : (l.map f).Nodup) (a : Nat)
    (ha : a ∈ l) (t : Nat → Nat) :
    (l.foldl (fun t b => updF t (f b) (g b)) t) (f a) = g a := by
  induction l generalizing t with
  | nil => cases ha
  | cons x xs ih =>
    rw [List.map_cons, List.nodup_cons] at hnd
    rw [List.foldl_cons]
    by_cases hmem : a ∈ xs
    · exact ih hnd.2 hmem _
    · have hax : a = x := by
        rcases List.mem_cons.mp ha with h | h
        · exact h
        · exact absurd h hmem
      subst hax
      rw [foldl_updF_not_mem f g xs _ (f a) ?_]
      · exact updF_same _ _ _
      · intro b hb heq
        exact hnd.1 (heq ▸ List.mem_map_of_mem f hb)


/-! ## Small bitboard set algebra -/

theorem land_lor_absorb (a b : Nat) : (a ||| b) &&& a = a := by
  apply Nat.eq_of_testBit_eq
  intro i
  rw [Nat.testBit_and, Nat.testBit_or]
  cases a.testBit i <;> simp

theorem land_lor_absorb2 (a b : Nat) : (a ||| b) &&& b = b := by
  rw [Nat.lor_comm]
  exact land_lor_absorb b a

theorem subset_lor_left (a b : Nat) : a &&& (a ||| b) = a := by
  rw [Nat.and_comm]
  exact land_lor_absorb a b

theorem subset_lor_right (a b : Nat) : b &&& (a ||| b) = b := by
  rw [Nat.and_comm]
  exact land_lor_absorb2 a b

theorem subset_trans (a b c : Nat) (h1 : a &&& b = a) (h2 : b &&& c = b) : a &&& c = a := by
  conv_lhs => rw [← h1, Nat.and_assoc, h2]
  exact h1

theorem land_sub_congr (occ1 occ2 r R : Nat) (hsub : r &&& R = r)
    (h : occ1 &&& R = occ2 &&& R) : occ1 &&& r = occ2 &&& r := by
  have e : ∀ occ : Nat, occ &&& r = (occ &&& R) &&& r := by
    intro occ
    rw [Nat.and_assoc, Nat.and_comm R r, hsub]
  rw [e occ1, e occ2, h]

theorem land_single_eq_zero (a s : Nat) (h : a.testBit s = false) : a &&& square_bb s = 0 := by
  apply Nat.eq_of_testBit_eq
  intro j
  rw [Nat.testBit_and, square_bb, one_shiftLeft_testBit, Nat.zero_testBit]
  by_cases hj : j = s
  · subst hj
    rw [h]
    rfl
  · rw [decide_eq_false fun he => hj he.symm]
    simp

/-! ## Occupancy congruence of the ray walk -/

theorem walk_congr (d : Int) (occ1 occ2 : Nat) :
    ∀ fuel s, occ1 &&& relBits d fuel s = occ2 &&& relBits d fuel s →
      walk occ1 d fuel s = walk occ2 d fuel s := by
  intro fuel
  induction fuel with
  | zero =>
    intro s _
    rfl
  | succ g ih =>
    intro s h
    rw [relBits] at h
    by_cases hsafe : safe_destination s d ≠ 0
    · rw [if_pos hsafe] at h
      have hbit : occ1 &&& square_bb s = occ2 &&& square_bb s :=
        land_sub_congr occ1 occ2 (square_bb s) _ (subset_lor_left _ _) h
      have hrel : occ1 &&& relBits d g (((s : Int) + d).toNat) =
          occ2 &&& relBits d g (((s : Int) + d).toNat) :=
        land_sub_congr occ1 occ2 _ _ (subset_lor_right _ _) h
      rw [walk, walk]
      have hcond : (safe_destination s d ≠ 0 ∧ occ1 &&& square_bb s = 0) ↔
          (safe_destination s d ≠ 0 ∧ occ2 &&& square_bb s = 0) := by
        rw [hbit]
      by_cases hg : safe_destination s d ≠ 0 ∧ occ1 &&& square_bb s = 0
      · rw [if_pos hg, if_pos (hcond.mp hg), ih _ hrel]
      · rw [if_neg hg, if_neg fun hc => hg (hcond.mpr hc)]
    · rw [walk, walk, if_neg fun hc => hsafe hc.1, if_neg
        fun hc : safe_destination s d ≠ 0 ∧ occ2 &&& square_bb s = 0 => hsafe hc.1]

theorem sliding_congr (pt : PieceType) (sq occ1 occ2 : Nat)
    (h : occ1 &&& relAll pt sq = occ2 &&& relAll pt sq) :
    sliding_attack pt sq occ1 = sliding_attack pt sq occ2 := by
  cases pt <;> simp only [sliding_attack] <;> rw [
    walk_congr _ occ1 occ2 8 sq (land_sub_congr occ1 occ2 _ _
      (subset_trans _ _ _ (subset_trans _ _ _ (subset_lor_left _ _) (subset_lor_left _ _))
        (subset_lor_left _ _)) h),
    walk_congr _ occ1 occ2 8 sq (land_sub_congr occ1 occ2 _ _
      (subset_trans _ _ _ (subset_trans _ _ _ (subset_lor_right _ _) (subset_lor_left _ _))
        (subset_lor_left _ _)) h),
    walk_congr _ occ1 occ2 8 sq (land_sub_congr occ1 occ2 _ _
      (subset_trans _ _ _ (subset_lor_right _ _) (subset_lor_left _ _)) h),
    walk_congr _ occ1 occ2 8 sq (land_sub_congr occ1 occ2 _ _ (subset_lor_right _ _) h)]

/-! ## The origin square -/

theorem walk_mem_gt (occ : Nat) (d : Int) (hd : 0 < d) :
    ∀ fuel s x, (walk occ d fuel s).testBit x = true → s < x := by
  intro fuel
  induction fuel with
  | zero =>
    intro s x hx
    simp [walk] at hx
  | succ g ih =>
    intro s x hx
    rw [walk] at hx
    by_cases hg : safe_destination s d ≠ 0 ∧ occ &&& square_bb s = 0
    · rw [if_pos hg] at hx
      obtain ⟨h0, h63, _, _⟩ := safe_destination_cases s d hg.1
      have hs' : s < ((s : Int) + d).toNat := by omega
      rw [Nat.testBit_or, square_bb, one_shiftLeft_testBit] at hx
      simp only [Bool.or_eq_true] at hx
      rcases hx with h | h
      · have := of_decide_eq_true h
        omega
      · exact lt_trans hs' (ih _ x h)
    · rw [if_neg hg] at hx
      simp at hx

theorem walk_mem_lt (occ : Nat) (d : Int) (hd : d < 0) :
    ∀ fuel s x, (walk occ d fuel s).testBit x = true → x < s := by
  intro fuel
  induction fuel with
  | zero =>
    intro s x hx
    simp [walk] at hx
  | succ g ih =>
    intro s x hx
    rw [walk] at hx
    by_cases hg : safe_destination s d ≠ 0 ∧ occ &&& square_bb s = 0
    · rw [if_pos hg] at hx
      obtain ⟨h0, h63, _, _⟩ := safe_destination_cases s d hg.1
      have hs' : ((s : Int) + d).toNat < s := by omega
      rw [Nat.testBit_or, square_bb, one_shiftLeft_testBit] at hx
      simp only [Bool.or_eq_true] at hx
      rcases hx with h | h
      · have := of_decide_eq_true h
        omega
      · exact lt_trans (ih _ x h) hs'
    · rw [if_neg hg] at hx
      simp at hx

theorem walk_origin_bit (occ : Nat) (d : Int) (hd : d ≠ 0) (fuel sq : Nat) :
    (walk occ d fuel sq).testBit sq = false := by
  cases h : (walk occ d fuel sq).testBit sq
  · rfl
  · exfalso
    rcases lt_trichotomy d 0 with hlt | heq | hgt
    · have := walk_mem_lt occ d hlt fuel sq sq h
      omega
    · exact hd heq
    · have := walk_mem_gt occ d hgt fuel sq sq h
      omega

theorem sliding_attack_origin_bit (pt : PieceType) (sq occ : Nat) :
    (sliding_attack pt sq occ).testBit sq = false := by
  cases pt <;> simp only [sliding_attack, Nat.testBit_or] <;>
    rw [walk_origin_bit occ _ (by norm_num) 8 sq, walk_origin_bit occ _ (by norm_num) 8 sq,
      walk_origin_bit occ _ (by norm_num) 8 sq, walk_origin_bit occ _ (by norm_num) 8 sq] <;>
    rfl

theorem maskOf_no_origin (pt : PieceType) (sq : Nat) : maskOf pt sq &&& square_bb sq = 0 := by
  unfold maskOf
  rw [Nat.and_comm (sliding_attack pt sq 0) (bbNot (edges sq)), Nat.and_assoc]
  rw [land_single_eq_zero _ _ (sliding_attack_origin_bit pt sq 0)]
  simp

/-! ## Replacing occupancy by its mask restriction -/

theorem relAllOK_extract (h : relAllOK = true) (pt : PieceType) (s : Nat) (hs : s < 64) :
    relAll pt s = maskOf pt s ||| square_bb s := by
  unfold relAllOK at h
  rw [List.all_eq_true] at h
  have h2 := h s (List.mem_range.mpr hs)
  rw [Bool.and_eq_true] at h2
  cases pt
  · exact eq_of_beq h2.1
  · exact eq_of_beq h2.2

theorem sliding_attack_masked (pt : PieceType) (sq occ : Nat) (hs : sq < 64)
    (hrel : relAllOK = true) (hocc : occ &&& square_bb sq = 0) :
    sliding_attack pt sq occ = sliding_attack pt sq (occ &&& maskOf pt sq) := by
  apply sliding_congr
  rw [relAllOK_extract hrel pt sq hs]
  rw [Nat.and_or_distrib_left, hocc, Nat.and_or_distrib_left]
  have e1 : occ &&& maskOf pt sq &&& maskOf pt sq = occ &&& maskOf pt sq := by
    rw [Nat.and_assoc, Nat.and_self]
  have e2 : occ &&& maskOf pt sq &&& square_bb sq = 0 := by
    rw [Nat.and_assoc, maskOf_no_origin, Nat.and_zero]
  rw [e1, e2]

/-! ## The attack table: slot contents and the lookup identity -/

theorem magicOK_of_all (h : allMagicOK = true) (pt : PieceType) (s : Nat) (hs : s < 64) :
    magicOK (maskOf pt s) (magicNumOf pt s) (bitsOf pt) = true := by
  unfold allMagicOK at h
  rw [List.all_eq_true] at h
  have h2 := h s (List.mem_range.mpr hs)
  rw [Bool.and_eq_true] at h2
  cases pt
  · exact h2.1
  · exact h2.2

theorem init_table_slot (pt : PieceType) (s : Nat)
    (hchk : magicOK (maskOf pt s) (magicNumOf pt s) (bitsOf pt) = true)
    (b : Nat) (hb : b ∈ subsetList (maskOf pt s)) :
    init_table pt s (indexOf pt s b) = sliding_attack pt s b := by
  unfold init_table
  have hnd : ((subsetList (maskOf pt s)).map (indexOf pt s)).Nodup :=
    map_index_nodup (maskOf pt s) (magicNumOf pt s) (bitsOf pt) (maskOf_lt pt s) hchk
  exact foldl_updF_mem (indexOf pt s) (sliding_attack pt s) _ hnd b hb _

theorem indexOf_land_mask (pt : PieceType) (s occ : Nat) :
    indexOf pt s occ = indexOf pt s (occ &&& maskOf pt s) := by
  unfold indexOf magic_index
  rw [Nat.and_assoc, Nat.and_self]

theorem land_mask_mem_subsetList (pt : PieceType) (s occ : Nat) :
    occ &&& maskOf pt s ∈ subsetList (maskOf pt s) := by
  rw [subsetList_mem_iff _ (maskOf_lt pt s)]
  rw [Nat.and_assoc, Nat.and_self]

/-- The fundamental lookup identity: the table lookup answers with the oracle
applied to the mask-restricted occupancy. -/
theorem attacks_bb_eq_masked (pt : PieceType) (s : Nat) (hall : allMagicOK = true) (hs : s < 64)
    (occ : Nat) : attacks_bb pt s occ = sliding_attack pt s (occ &&& maskOf pt s) := by
  unfold attacks_bb
  rw [indexOf_land_mask pt s occ]
  exact init_table_slot pt s (magicOK_of_all hall pt s hs) _ (land_mask_mem_subsetList pt s occ)

/-- The lookup agrees with the oracle whenever the queried square itself is
not part of the occupancy. -/
theorem attacks_bb_eq_sliding (pt : PieceType) (s : Nat) (hall : allMagicOK = true)
    (hrel : relAllOK = true) (hs : s < 64) (occ : Nat) (hocc : occ &&& square_bb s = 0) :
    attacks_bb pt s occ = sliding_attack pt s occ := by
  rw [attacks_bb_eq_masked pt s hall hs occ]
  exact (sliding_attack_masked pt s occ hs hrel hocc).symm

theorem attacks_bb_empty (pt : PieceType) (s : Nat) (hall : allMagicOK = true)
    (hrel : relAllOK = true) (hs : s < 64) : attacks_bb pt s 0 = sliding_attack pt s 0 :=
  attacks_bb_eq_sliding pt s hall hrel hs 0 (by simp)

/-! ## Characterising the ray walk -/

theorem posAlong_zero (s : Nat) (d : Int) : posAlong s d 0 = s := by
  unfold posAlong
  simp

theorem posAlong_one (s : Nat) (d : Int) : posAlong s d 1 = ((s : Int) + d).toNat := by
  unfold posAlong
  simp

theorem posAlong_shift (s : Nat) (d : Int) (h0 : 0 ≤ (s : Int) + d) :
    ∀ i : Nat, posAlong (((s : Int) + d).toNat) d i = posAlong s d (i + 1) := by
  intro i
  unfold posAlong
  congr 1
  rw [Int.toNat_of_nonneg h0]
  push_cast
  ring

theorem walk_testBit_iff (occ : Nat) (d : Int) :
    ∀ fuel s x, (walk occ d fuel s).testBit x = true ↔
      ∃ n, 1 ≤ n ∧ n ≤ fuel ∧ x = posAlong s d n ∧
        (∀ i, i < n → safe_destination (posAlong s d i) d ≠ 0) ∧
        (∀ i, i < n → occ &&& square_bb (posAlong s d i) = 0) := by
  intro fuel
  induction fuel with
  | zero =>
    intro s x
    constructor
    · intro hx
      simp [walk] at hx
    · rintro ⟨n, h1, h2, -⟩
      omega
  | succ g ih =>
    intro s x
    rw [walk]
    by_cases hg : safe_destination s d ≠ 0 ∧ occ &&& square_bb s = 0
    · rw [if_pos hg]
      obtain ⟨h0, h63, -, -⟩ := safe_destination_cases s d hg.1
      rw [Nat.testBit_or, square_bb, one_shiftLeft_testBit, Bool.or_eq_true]
      constructor
      · rintro (h | h)
        · have hx : ((s : Int) + d).toNat = x := of_decide_eq_true h
          refine ⟨1, by omega, by omega, ?_, ?_, ?_⟩
          · rw [posAlong_one]
            omega
          · intro i hi
            have : i = 0 := by omega
            subst this
            rw [posAlong_zero]
            exact hg.1
          · intro i hi
            have : i = 0 := by omega
            subst this
            rw [posAlong_zero]
            exact hg.2
        · obtain ⟨n, h1, hle, hx, hsafe, hocc⟩ := (ih _ x).mp h
          refine ⟨n + 1, by omega, by omega, ?_, ?_, ?_⟩
          · rw [hx, posAlong_shift s d h0]
          · intro i hi
            cases i with
            | zero =>
              rw [posAlong_zero]
              exact hg.1
            | succ j =>
              rw [← posAlong_shift s d h0]
              exact hsafe j (by omega)
          · intro i hi
            cases i with
            | zero =>
              rw [posAlong_zero]
              exact hg.2
            | succ j =>
              rw [← posAlong_shift s d h0]
              exact hocc j (by omega)
      · rintro ⟨n, h1, hle, hx, hsafe, hocc⟩
        cases n with
        | zero => omega
        | succ m =>
          cases m with
          | zero =>
            left
            apply decide_eq_true
            rw [posAlong_one] at hx
            omega
          | succ p =>
            right
            apply (ih _ x).mpr
            refine ⟨p + 1, by omega, by omega, ?_, ?_, ?_⟩
            · rw [posAlong_shift s d h0]
              exact hx
            · intro i hi
              rw [posAlong_shift s d h0]
              exact hsafe (i + 1) (by omega)
            · intro i hi
              rw [posAlong_shift s d h0]
              exact hocc (i + 1) (by omega)
    · rw [if_neg hg]
      constructor
      · intro hx
        simp at hx
      · rintro ⟨n, h1, hle, hx, hsafe, hocc⟩
        exfalso
        apply hg
        constructor
        · have := hsafe 0 (by omega)
          rwa [posAlong_zero] at this
        · have := hocc 0 (by omega)
          rwa [posAlong_zero] at this

/-! ## No direction admits eight consecutive safe steps -/

theorem chainSafe_of_safe (d : Int) :
    ∀ n s, (∀ i, i < n → safe_destination (posAlong s d i) d ≠ 0) → chainSafe d n s = true := by
  intro n
  induction n with
  | zero =>
    intro s _
    rfl
  | succ g ih =>
    intro s h
    have hsafe0 : safe_destination s d ≠ 0 := by
      have := h 0 (by omega)
      rwa [posAlong_zero] at this
    obtain ⟨h0, -, -, -⟩ := safe_destination_cases s d hsafe0
    rw [chainSafe, Bool.and_eq_true]
    constructor
    · rwa [bne_iff_ne]
    · apply ih
      intro i hi
      rw [posAlong_shift s d h0]
      exact h (i + 1) (by omega)

theorem noChain8_bound (hchain : noChain8 = true) (d : Int)
    (hd : d = 8 ∨ d = -8 ∨ d = 1 ∨ d = -1 ∨ d = 9 ∨ d = -7 ∨ d = -9 ∨ d = 7)
    (s : Nat) (hs : s < 64) (n : Nat)
    (hsafe : ∀ i, i < n → safe_destination (posAlong s d i) d ≠ 0) : n ≤ 7 := by
  by_contra hn
  have h8 : chainSafe d 8 s = true :=
    chainSafe_of_safe d 8 s fun i hi => hsafe i (by omega)
  unfold noChain8 at hchain
  rw [List.all_eq_true] at hchain
  have hdm : d ∈ ([8, -8, 1, -1, 9, -7, -9, 7] : List Int) := by
    rcases hd with h | h | h | h | h | h | h | h <;> subst h <;> simp
  have h2 := hchain d hdm
  rw [List.all_eq_true] at h2
  have h3 := h2 s (List.mem_range.mpr hs)
  rw [h8] at h3
  simp at h3

/-- Bit-level characterisation of `sliding_attack`, exactly as the code walks:
a square is attacked iff it is reached along one of the category directions
after some number of safe steps, all earlier positions (the origin included)
being unoccupied. -/
theorem sliding_attack_testBit_iff (pt : PieceType) (sq occ x : Nat) (hsq : sq < 64)
    (hchain : noChain8 = true) :
    (sliding_attack pt sq occ).testBit x = true ↔ codeAttacked pt sq occ x := by
  cases pt with
  | ROOK =>
    constructor
    · intro h
      simp only [sliding_attack, Nat.testBit_or, Bool.or_eq_true] at h
      rcases h with ((h | h) | h) | h <;>
        · obtain ⟨n, h1, hle, hx, hsafe, hocc⟩ := (walk_testBit_iff occ _ 8 sq x).mp h
          exact ⟨_, by decide, n, h1, hsafe, hx, hocc⟩
    · rintro ⟨d, hd, n, h1, hsafe, hx, hocc⟩
      have hd' : d = 8 ∨ d = -8 ∨ d = 1 ∨ d = -1 := by
        simpa using hd
      have hbound : n ≤ 7 := by
        apply noChain8_bound hchain d ?_ sq hsq n hsafe
        tauto
      simp only [sliding_attack, Nat.testBit_or, Bool.or_eq_true]
      rcases hd' with rfl | rfl | rfl | rfl
      · exact Or.inl (Or.inl (Or.inl ((walk_testBit_iff occ 8 8 sq x).mpr
          ⟨n, h1, by omega, hx, hsafe, hocc⟩)))
      · exact Or.inl (Or.inl (Or.inr ((walk_testBit_iff occ (-8) 8 sq x).mpr
          ⟨n, h1, by omega, hx, hsafe, hocc⟩)))
      · exact Or.inl (Or.inr ((walk_testBit_iff occ 1 8 sq x).mpr
          ⟨n, h1, by omega, hx, hsafe, hocc⟩))
      · exact Or.inr ((walk_testBit_iff occ (-1) 8 sq x).mpr
          ⟨n, h1, by omega, hx, hsafe, hocc⟩)
  | BISHOP =>
    constructor
    · intro h
      simp only [sliding_attack, Nat.testBit_or, Bool.or_eq_true] at h
      rcases h with ((h | h) | h) | h <;>
        · obtain ⟨n, h1, hle, hx, hsafe, hocc⟩ := (walk_testBit_iff occ _ 8 sq x).mp h
          exact ⟨_, by decide, n, h1, hsafe, hx, hocc⟩
    · rintro ⟨d, hd, n, h1, hsafe, hx, hocc⟩
      have hd' : d = 9 ∨ d = -7 ∨ d = -9 ∨ d = 7 := by
        simpa using hd
      have hbound : n ≤ 7 := by
        apply noChain8_bound hchain d ?_ sq hsq n hsafe
        tauto
      simp only [sliding_attack, Nat.testBit_or, Bool.or_eq_true]
      rcases hd' with rfl | rfl | rfl | rfl
      · exact Or.inl (Or.inl (Or.inl ((walk_testBit_iff occ 9 8 sq x).mpr
          ⟨n, h1, by omega, hx, hsafe, hocc⟩)))
      · exact Or.inl (Or.inl (Or.inr ((walk_testBit_iff occ (-7) 8 sq x).mpr
          ⟨n, h1, by omega, hx, hsafe, hocc⟩)))
      · exact Or.inl (Or.inr ((walk_testBit_iff occ (-9) 8 sq x).mpr
          ⟨n, h1, by omega, hx, hsafe, hocc⟩))
      · exact Or.inr ((walk_testBit_iff occ 7 8 sq x).mpr
          ⟨n, h1, by omega, hx, hsafe, hocc⟩)

/-! ## Single-bit tests and complement facts -/

theorem land_single_ne (a s : Nat) : a &&& square_bb s ≠ 0 ↔ a.testBit s = true := by
  constructor
  · intro h
    by_contra hb
    simp only [Bool.not_eq_true] at hb
    exact h (land_single_eq_zero a s hb)
  · intro h hz
    have hbit : (a &&& square_bb s).testBit s = true := by
      simp [Nat.testBit_and, h, square_bb, one_shiftLeft_testBit]
    rw [hz] at hbit
    simp at hbit

theorem square_bb_ne_zero (s : Nat) : square_bb s ≠ 0 := by
  simpa [square_bb, Nat.shiftLeft_eq] using (Nat.two_pow_pos s).ne'

theorem square_bb_land_ne (s1 s2 : Nat) (h : s1 ≠ s2) : square_bb s1 &&& square_bb s2 = 0 := by
  apply land_single_eq_zero
  rw [square_bb, one_shiftLeft_testBit]
  simp [h]

theorem land_bbNot (a e : Nat) (he : e < 2 ^ 64) : (a &&& bbNot e) &&& e = 0 := by
  apply Nat.eq_of_testBit_eq
  intro i
  simp only [Nat.testBit_and, Nat.zero_testBit, bbNot, Nat.testBit_xor]
  by_cases hei : e.testBit i = true
  · have h1 : (2 ^ 64 - 1 : Nat).testBit i = true := by
      rw [Nat.testBit_two_pow_sub_one]
      by_contra hb
      simp only [decide_eq_true_eq, Bool.not_eq_true] at hb
      have hge : 64 ≤ i := by
        by_contra hlt
        simp [Nat.not_le.mp hlt] at hb
      have : e.testBit i = false := Nat.testBit_lt_two_pow (lt_of_lt_of_le he
        (Nat.pow_le_pow_right (by omega) hge))
      rw [this] at hei
      exact Bool.noConfusion hei
    rw [hei, h1]
    simp
  · simp only [Bool.not_eq_true] at hei
    rw [hei]
    simp

theorem foldr_mask_lt (g : Nat → Bool) : ∀ l : List Nat, (∀ x ∈ l, x < 64) →
    l.foldr (fun x acc => if g x then square_bb x ||| acc else acc) 0 < 2 ^ 64 := by
  intro l
  induction l with
  | nil =>
    intro _
    simp only [List.foldr_nil]
    exact Nat.two_pow_pos 64
  | cons a t ih =>
    intro hb
    simp only [List.foldr_cons]
    by_cases hg : g a = true
    · rw [if_pos hg]
      refine Nat.or_lt_two_pow (square_bb_lt a ?_) (ih fun x hx => hb x (by simp [hx]))
      have := hb a (by simp)
      omega
    · rw [if_neg hg]
      exact ih fun x hx => hb x (by simp [hx])

theorem edgesSpec_lt (s : Nat) : edgesSpec s < 2 ^ 64 := by
  unfold edgesSpec
  exact foldr_mask_lt
    (fun x => ((rank_of x == 0 || rank_of x == 7) && rank_of x != rank_of s) ||
      ((file_of x == 0 || file_of x == 7) && file_of x != file_of s))
    (List.range 64) (fun x hx => List.mem_range.mp hx)

/-! ## Extracting the whole-board checks -/

theorem edgesOK_extract (h : edgesOK = true) (s : Nat) (hs : s < 64) :
    edges s = edgesSpec s := by
  unfold edgesOK at h
  rw [List.all_eq_true] at h
  exact eq_of_beq (h s (List.mem_range.mpr hs))

theorem pseudoDisjoint_extract (h : pseudoDisjoint = true) (s : Nat) (hs : s < 64) :
    sliding_attack .ROOK s 0 &&& sliding_attack .BISHOP s 0 = 0 := by
  unfold pseudoDisjoint at h
  rw [List.all_eq_true] at h
  exact eq_of_beq (h s (List.mem_range.mpr hs))

theorem pseudoGeom_rook (h : pseudoGeomOK = true) (s1 s2 : Nat) (h1 : s1 < 64) (h2 : s2 < 64) :
    sliding_attack .ROOK s1 0 &&& square_bb s2 ≠ 0 ↔
      s1 ≠ s2 ∧ (file_of s1 = file_of s2 ∨ rank_of s1 = rank_of s2) := by
  unfold pseudoGeomOK at h
  rw [List.all_eq_true] at h
  have h3 := h s1 (List.mem_range.mpr h1)
  rw [List.all_eq_true] at h3
  have h4 := h3 s2 (List.mem_range.mpr h2)
  rw [Bool.and_eq_true] at h4
  have key : (sliding_attack .ROOK s1 0 &&& square_bb s2 != 0) = true ↔
      (s1 != s2 && (file_of s1 == file_of s2 || rank_of s1 == rank_of s2)) = true := by
    rw [eq_of_beq h4.1]
  simpa [bne_iff_ne, Bool.and_eq_true, Bool.or_eq_true, beq_iff_eq] using key

theorem pseudoGeom_bishop (h : pseudoGeomOK = true) (s1 s2 : Nat) (h1 : s1 < 64) (h2 : s2 < 64) :
    sliding_attack .BISHOP s1 0 &&& square_bb s2 ≠ 0 ↔
      s1 ≠ s2 ∧ (file_of s1 + rank_of s2 = file_of s2 + rank_of s1 ∨
        file_of s1 + rank_of s1 = file_of s2 + rank_of s2) := by
  unfold pseudoGeomOK at h
  rw [List.all_eq_true] at h
  have h3 := h s1 (List.mem_range.mpr h1)
  rw [List.all_eq_true] at h3
  have h4 := h3 s2 (List.mem_range.mpr h2)
  rw [Bool.and_eq_true] at h4
  have key : (sliding_attack .BISHOP s1 0 &&& square_bb s2 != 0) = true ↔
      (s1 != s2 && (file_of s1 + rank_of s2 == file_of s2 + rank_of s1 ||
        file_of s1 + rank_of s1 == file_of s2 + rank_of s2)) = true := by
    rw [eq_of_beq h4.2]
  simpa [bne_iff_ne, Bool.and_eq_true, Bool.or_eq_true, beq_iff_eq] using key

theorem alignedB_iff (s1 s2 : Nat) : alignedB s1 s2 = true ↔
    (sliding_attack .ROOK s1 0 &&& square_bb s2 ≠ 0 ∨
      sliding_attack .BISHOP s1 0 &&& square_bb s2 ≠ 0) := by
  unfold alignedB
  simp [Bool.or_eq_true, bne_iff_ne]

theorem betweenOK_extract (h : betweenOK = true) (s1 s2 : Nat) (h1 : s1 < 64) (h2 : s2 < 64)
    (ha : alignedB s1 s2 = true) :
    betweenS s1 s2 = openSegment s1 s2 ||| square_bb s2 := by
  unfold betweenOK at h
  rw [List.all_eq_true] at h
  have h3 := h s1 (List.mem_range.mpr h1)
  rw [List.all_eq_true] at h3
  have h4 := h3 s2 (List.mem_range.mpr h2)
  rw [Bool.or_eq_true] at h4
  rcases h4 with h4 | h4
  · rw [Bool.not_eq_true'] at h4
    rw [ha] at h4
    exact Bool.noConfusion h4
  · exact eq_of_beq h4

theorem rook_bishop_not_both (hdisj : pseudoDisjoint = true) (s1 s2 : Nat) (h1 : s1 < 64)
    (hB : sliding_attack .BISHOP s1 0 &&& square_bb s2 ≠ 0) :
    ¬ sliding_attack .ROOK s1 0 &&& square_bb s2 ≠ 0 := by
  intro hR
  have tR := (land_single_ne _ _).mp hR
  have tB := (land_single_ne _ _).mp hB
  have hbit : (sliding_attack .ROOK s1 0 &&& sliding_attack .BISHOP s1 0).testBit s2 = true := by
    rw [Nat.testBit_and, tR, tB]
    rfl
  rw [pseudoDisjoint_extract hdisj s1 h1] at hbit
  simp at hbit

/-! ## The derived tables, reduced to the ray-walking oracle -/

theorem PseudoAttacks_eq_sliding (pt : PieceType) (s : Nat) (hall : allMagicOK = true)
    (hrel : relAllOK = true) (hs : s < 64) : PseudoAttacks pt s = sliding_attack pt s 0 :=
  attacks_bb_empty pt s hall hrel hs

theorem BetweenBB_eq_betweenS (s1 s2 : Nat) (hall : allMagicOK = true) (hrel : relAllOK = true)
    (h1 : s1 < 64) (h2 : s2 < 64) (hne : s1 ≠ s2) : BetweenBB s1 s2 = betweenS s1 s2 := by
  have e12 : square_bb s2 &&& square_bb s1 = 0 := square_bb_land_ne s2 s1 (Ne.symm hne)
  have e21 : square_bb s1 &&& square_bb s2 = 0 := square_bb_land_ne s1 s2 hne
  have aR1 := attacks_bb_eq_sliding .ROOK s1 hall hrel h1 (square_bb s2) e12
  have aR2 := attacks_bb_eq_sliding .ROOK s2 hall hrel h2 (square_bb s1) e21
  have aB1 := attacks_bb_eq_sliding .BISHOP s1 hall hrel h1 (square_bb s2) e12
  have aB2 := attacks_bb_eq_sliding .BISHOP s2 hall hrel h2 (square_bb s1) e21
  have hP_R := PseudoAttacks_eq_sliding .ROOK s1 hall hrel h1
  have hP_B := PseudoAttacks_eq_sliding .BISHOP s1 hall hrel h1
  unfold BetweenBB betweenS
  rw [hP_R, hP_B, aR1, aR2, aB1, aB2]

theorem BetweenBB_diag (s : Nat) (hall : allMagicOK = true) (hrel : relAllOK = true)
    (hs : s < 64) : BetweenBB s s = square_bb s := by
  have hR : PseudoAttacks .ROOK s &&& square_bb s = 0 := by
    rw [PseudoAttacks_eq_sliding .ROOK s hall hrel hs]
    exact land_single_eq_zero _ _ (sliding_attack_origin_bit .ROOK s 0)
  have hB : PseudoAttacks .BISHOP s &&& square_bb s = 0 := by
    rw [PseudoAttacks_eq_sliding .BISHOP s hall hrel hs]
    exact land_single_eq_zero _ _ (sliding_attack_origin_bit .BISHOP s 0)
  unfold BetweenBB
  rw [if_neg (fun hc => hc hR), if_neg (fun hc => hc hB)]
  simp

/-! ## The walk with an occupied origin -/

theorem walk_occupied (occ : Nat) (d : Int) (fuel s : Nat) (h : occ &&& square_bb s ≠ 0) :
    walk occ d fuel s = 0 := by
  cases fuel with
  | zero => rfl
  | succ g =>
    rw [walk, if_neg]
    intro hc
    exact h hc.2

theorem sliding_attack_occupied (pt : PieceType) (sq occ : Nat)
    (h : occ &&& square_bb sq ≠ 0) : sliding_attack pt sq occ = 0 := by
  cases pt <;> simp only [sliding_attack] <;>
    rw [walk_occupied occ _ 8 sq h, walk_occupied occ _ 8 sq h,
      walk_occupied occ _ 8 sq h, walk_occupied occ _ 8 sq h] <;> rfl

/-! ## The whole-board checks hold by computation -/

set_option maxRecDepth 10000 in
theorem noChain8_eq : noChain8 = true := by decide

set_option maxRecDepth 10000 in
theorem relAllOK_eq : relAllOK = true := by decide

set_option maxRecDepth 10000 in
theorem edgesOK_eq : edgesOK = true := by decide

set_option maxRecDepth 10000 in
theorem pseudoDisjoint_eq : pseudoDisjoint = true := by decide

set_option maxRecDepth 10000 in
set_option maxHeartbeats 1000000 in
theorem pseudoGeomOK_eq : pseudoGeomOK = true := by decide

set_option maxRecDepth 10000 in
set_option maxHeartbeats 1000000 in
theorem betweenRow_0 : ((List.range 64).all fun s2 =>
    (!(alignedB 0 s2)) || (betweenS 0 s2 == openSegment 0 s2 ||| square_bb s2)) = true := by
  decide

set_option maxRecDepth 10000 in
set_option maxHeartbeats 1000000 in
theorem betweenRow_1 : ((List.range 64).all fun s2 =>
    (!(alignedB 1 s2)) || (betweenS 1 s2 == openSegment 1 s2 ||| square_bb s2)) = true := by
  decide

set_option maxRecDepth 10000 in
set_option maxHeartbeats 1000000 in
theorem betweenRow_2 : ((List.range 64).all fun s2 =>
    (!(alignedB 2 s2)) || (betweenS 2 s2 == openSegment 2 s2 ||| square_bb s2)) = true := by
  decide

set_option maxRecDepth 10000 in
set_option maxHeartbeats 1000000 in
theorem betweenRow_3 : ((List.range 64).all fun s2 =>
    (!(alignedB 3 s2)) || (betweenS 3 s2 == openSegment 3 s2 ||| square_bb s2)) = true := by
  decide

set_option maxRecDepth 10000 in
set_option maxHeartbeats 1000000 in
theorem betweenRow_4 : ((List.range 64).all fun s2 =>
    (!(alignedB 4 s2)) || (betweenS 4 s2 == openSegment 4 s2 ||| square_bb s2)) = true := by
  decide

set_option maxRecDepth 10000 in
set_option maxHeartbeats 1000000 in
theorem betweenRow_5 : ((List.range 64).all fun s2 =>
    (!(alignedB 5 s2)) || (betweenS 5 s2 == openSegment 5 s2 ||| square_bb s2)) = true := by
  decide

set_option maxRecDepth 10000 in
set_option maxHeartbeats 1000000 in
theorem betweenRow_6 : ((List.range 64).all fun s2 =>
    (!(alignedB 6 s2)) || (betweenS 6 s2 == openSegment 6 s2 ||| square_bb s2)) = true := by
  decide

set_option maxRecDepth 10000 in
set_option maxHeartbeats 1000000 in
theorem betweenRow_7 : ((List.range 64).all fun s2 =>
    (!(alignedB 7 s2)) || (betweenS 7 s2 == openSegment 7 s2 ||| square_bb s2)) = true := by
  decide

set_option maxRecDepth 10000 in
set_option maxHeartbeats 1000000 in
theorem betweenRow_8 : ((List.range 64).all fun s2 =>
    (!(alignedB 8 s2)) || (betweenS 8 s2 == openSegment 8 s2 ||| square_bb s2)) = true := by
  decide

set_option maxRecDepth 10000 in
set_option maxHeartbeats 1000000 in
theorem betweenRow_9 : ((List.range 64).all fun s2 =>
    (!(alignedB 9 s2)) || (betweenS 9 s2 == openSegment 9 s2 ||| square_bb s2)) = true := by
  decide

set_option maxRecDepth 10000 in
set_option maxHeartbeats 1000000 in
theorem betweenRow_10 : ((List.range 64).all fun s2 =>
    (!(alignedB 10 s2)) || (betweenS 10 s2 == openSegment 10 s2 ||| square_bb s2)) = true := by
  decide

set_option maxRecDepth 10000 in
set_option maxHeartbeats 1000000 in
theorem betweenRow_11 : ((List.range 64).all fun s2 =>
    (!(alignedB 11 s2)) || (betweenS 11 s2 == openSegment 11 s2 ||| square_bb s2)) = true := by
  decide

set_option maxRecDepth 10000 in
set_option maxHeartbeats 1000000 in
theorem betweenRow_12 : ((List.range 64).all fun s2 =>
    (!(alignedB 12 s2)) || (betweenS 12 s2 == openSegment 12 s2 ||| square_bb s2)) = true := by
  decide

set_option maxRecDepth 10000 in
set_option maxHeartbeats 1000000 in
theorem betweenRow_13 : ((List.range 64).all fun s2 =>
    (!(alignedB 13 s2)) || (betweenS 13 s2 == openSegment 13 s2 ||| square_bb s2)) = true := by
  decide

set_option maxRecDepth 10000 in
set_option maxHeartbeats 1000000 in
theorem betweenRow_14 : ((List.range 64).all fun s2 =>
    (!(alignedB 14 s2)) || (betweenS 14 s2 == openSegment 14 s2 ||| square_bb s2)) = true := by
  decide

set_option maxRecDepth 10000 in
set_option maxHeartbeats 1000000 in
theorem betweenRow_15 : ((List.range 64).all fun s2 =>
    (!(alignedB 15 s2)) || (betweenS 15 s2 == openSegment 15 s2 ||| square_bb s2)) = true := by
  decide

set_option maxRecDepth 10000 in
set_option maxHeartbeats 1000000 in
theorem betweenRow_16 : ((List.range 64).all fun s2 =>
    (!(alignedB 16 s2)) || (betweenS 16 s2 == openSegment 16 s2 ||| square_bb s2)) = true := by
  decide

set_option maxRecDepth 10000 in
set_option maxHeartbeats 1000000 in
theorem betweenRow_17 : ((List.range 64).all fun s2 =>
    (!(alignedB 17 s2)) || (betweenS 17 s2 == openSegment 17 s2 ||| square_bb s2)) = true := by
  decide

set_option maxRecDepth 10000 in
set_option maxHeartbeats 1000000 in
theorem betweenRow_18 : ((List.range 64).all fun s2 =>
    (!(alignedB 18 s2)) || (betweenS 18 s2 == openSegment 18 s2 ||| square_bb s2)) = true := by
  decide

set_option maxRecDepth 10000 in
set_option maxHeartbeats 1000000 in
theorem betweenRow_19 : ((List.range 64).all fun s2 =>
    (!(alignedB 19 s2)) || (betweenS 19 s2 == openSegment 19 s2 ||| square_bb s2)) = true := by
  decide

set_option maxRecDepth 10000 in
set_option maxHeartbeats 1000000 in
theorem betweenRow_20 : ((List.range 64).all fun s2 =>
    (!(alignedB 20 s2)) || (betweenS 20 s2 == openSegment 20 s2 ||| square_bb s2)) = true := by
  decide

set_option maxRecDepth 10000 in
set_option maxHeartbeats 1000000 in
theorem betweenRow_21 : ((List.range 64).all fun s2 =>
    (!(alignedB 21 s2)) || (betweenS 21 s2 == openSegment 21 s2 ||| square_bb s2)) = true := by
  decide

set_option maxRecDepth 10000 in
set_option maxHeartbeats 1000000 in
theorem betweenRow_22 : ((List.range 64).all fun s2 =>
    (!(alignedB 22 s2)) || (betweenS 22 s2 == openSegment 22 s2 ||| square_bb s2)) = true := by
  decide

set_option maxRecDepth 10000 in
set_option maxHeartbeats 1000000 in
theorem betweenRow_23 : ((List.range 64).all fun s2 =>
    (!(alignedB 23 s2)) || (betweenS 23 s2 == openSegment 23 s2 ||| square_bb s2)) = true := by
  decide

set_option maxRecDepth 10000 in
set_option maxHeartbeats 1000000 in
theorem betweenRow_24 : ((List.range 64).all fun s2 =>
    (!(alignedB 24 s2)) || (betweenS 24 s2 == openSegment 24 s2 ||| square_bb s2)) = true := by
  decide

set_option maxRecDepth 10000 in
set_option maxHeartbeats 1000000 in
theorem betweenRow_25 : ((List.range 64).all fun s2 =>
    (!(alignedB 25 s2)) || (betweenS 25 s2 == openSegment 25 s2 ||| square_bb s2)) = true := by
  decide

set_option maxRecDepth 10000 in
set_option maxHeartbeats 1000000 in
theorem betweenRow_26 : ((List.range 64).all fun s2 =>
    (!(alignedB 26 s2)) || (betweenS 26 s2 == openSegment 26 s2 ||| square_bb s2)) = true := by
  decide

set_option maxRecDepth 10000 in
set_option maxHeartbeats 1000000 in
theorem betweenRow_27 : ((List.range 64).all fun s2 =>
    (!(alignedB 27 s2)) || (betweenS 27 s2 == openSegment 27 s2 ||| square_bb s2)) = true := by
  decide

set_option maxRecDepth 10000 in
set_option maxHeartbeats 1000000 in
theorem betweenRow_28 : ((List.range 64).all fun s2 =>
    (!(alignedB 28 s2)) || (betweenS 28 s2 == openSegment 28 s2 ||| square_bb s2)) = true := by
  decide

set_option maxRecDepth 10000 in
set_option maxHeartbeats 1000000 in
theorem betweenRow_29 : ((List.range 64).all fun s2 =>
    (!(alignedB 29 s2)) || (betweenS 29 s2 == openSegment 29 s2 ||| square_bb s2)) = true := by
  decide

set_option maxRecDepth 10000 in
set_option maxHeartbeats 1000000 in
theorem betweenRow_30 : ((List.range 64).all fun s2 =>
    (!(alignedB 30 s2)) || (betweenS 30 s2 == openSegment 30 s2 ||| square_bb s2)) = true := by
  decide

set_option maxRecDepth 10000 in
set_option maxHeartbeats 1000000 in
theorem betweenRow_31 : ((List.range 64).all fun s2 =>
    (!(alignedB 31 s2)) || (betweenS 31 s2 == openSegment 31 s2 ||| square_bb s2)) = true := by
  decide

set_option maxRecDepth 10000 in
set_option maxHeartbeats 1000000 in
theorem betweenRow_32 : ((List.range 64).all fun s2 =>
    (!(alignedB 32 s2)) || (betweenS 32 s2 == openSegment 32 s2 ||| square_bb s2)) = true := by
  decide

set_option maxRecDepth 10000 in
set_option maxHeartbeats 1000000 in
theorem betweenRow_33 : ((List.range 64).all fun s2 =>
    (!(alignedB 33 s2)) || (betweenS 33 s2 == openSegment 33 s2 ||| square_bb s2)) = true := by
  decide

set_option maxRecDepth 10000 in
set_option maxHeartbeats 1000000 in
theorem betweenRow_34 : ((List.range 64).all fun s2 =>
    (!(alignedB 34 s2)) || (betweenS 34 s2 == openSegment 34 s2 ||| square_bb s2)) = true := by
  decide

set_option maxRecDepth 10000 in
set_option maxHeartbeats 1000000 in
theorem betweenRow_35 : ((List.range 64).all fun s2 =>
    (!(alignedB 35 s2)) || (betweenS 35 s2 == openSegment 35 s2 ||| square_bb s2)) = true := by
  decide

set_option maxRecDepth 10000 in
set_option maxHeartbeats 1000000 in
theorem betweenRow_36 : ((List.range 64).all fun s2 =>
    (!(alignedB 36 s2)) || (betweenS 36 s2 == openSegment 36 s2 ||| square_bb s2)) = true := by
  decide

set_option maxRecDepth 10000 in
set_option maxHeartbeats 1000000 in
theorem betweenRow_37 : ((List.range 64).all fun s2 =>
    (!(alignedB 37 s2)) || (betweenS 37 s2 == openSegment 37 s2 ||| square_bb s2)) = true := by
  decide

set_option maxRecDepth 10000 in
set_option maxHeartbeats 1000000 in
theorem betweenRow_38 : ((List.range 64).all fun s2 =>
    (!(alignedB 38 s2)) || (betweenS 38 s2 == openSegment 38 s2 ||| square_bb s2)) = true := by
  decide

set_option maxRecDepth 10000 in
set_option maxHeartbeats 1000000 in
theorem betweenRow_39 : ((List.range 64).all fun s2 =>
    (!(alignedB 39 s2)) || (betweenS 39 s2 == openSegment 39 s2 ||| square_bb s2)) = true := by
  decide

set_option maxRecDepth 10000 in
set_option maxHeartbeats 1000000 in
theorem betweenRow_40 : ((List.range 64).all fun s2 =>
    (!(alignedB 40 s2)) || (betweenS 40 s2 == openSegment 40 s2 ||| square_bb s2)) = true := by
  decide

set_option maxRecDepth 10000 in
set_option maxHeartbeats 1000000 in
theorem betweenRow_41 : ((List.range 64).all fun s2 =>
    (!(alignedB 41 s2)) || (betweenS 41 s2 == openSegment 41 s2 ||| square_bb s2)) = true := by
  decide

set_option maxRecDepth 10000 in
set_option maxHeartbeats 1000000 in
theorem betweenRow_42 : ((List.range 64).all fun s2 =>
    (!(alignedB 42 s2)) || (betweenS 42 s2 == openSegment 42 s2 ||| square_bb s2)) = true := by
  decide

set_option maxRecDepth 10000 in
set_option maxHeartbeats 1000000 in
theorem betweenRow_43 : ((List.range 64).all fun s2 =>
    (!(alignedB 43 s2)) || (betweenS 43 s2 == openSegment 43 s2 ||| square_bb s2)) = true := by
  decide

set_option maxRecDepth 10000 in
set_option maxHeartbeats 1000000 in
theorem betweenRow_44 : ((List.range 64).all fun s2 =>
    (!(alignedB 44 s2)) || (betweenS 44 s2 == openSegment 44 s2 ||| square_bb s2)) = true := by
  decide

set_option maxRecDepth 10000 in
set_option maxHeartbeats 1000000 in
theorem betweenRow_45 : ((List.range 64).all fun s2 =>
    (!(alignedB 45 s2)) || (betweenS 45 s2 == openSegment 45 s2 ||| square_bb s2)) = true := by
  decide

set_option maxRecDepth 10000 in
set_option maxHeartbeats 1000000 in
theorem betweenRow_46 : ((List.range 64).all fun s2 =>
    (!(alignedB 46 s2)) || (betweenS 46 s2 == openSegment 46 s2 ||| square_bb s2)) = true := by
  decide

set_option maxRecDepth 10000 in
set_option maxHeartbeats 1000000 in
theorem betweenRow_47 : ((List.range 64).all fun s2 =>
    (!(alignedB 47 s2)) || (betweenS 47 s2 == openSegment 47 s2 ||| square_bb s2)) = true := by
  decide

set_option maxRecDepth 10000 in
set_option maxHeartbeats 1000000 in
theorem betweenRow_48 : ((List.range 64).all fun s2 =>
    (!(alignedB 48 s2)) || (betweenS 48 s2 == openSegment 48 s2 ||| square_bb s2)) = true := by
  decide

set_option maxRecDepth 10000 in
set_option maxHeartbeats 1000000 in
theorem betweenRow_49 : ((List.range 64).all fun s2 =>
    (!(alignedB 49 s2)) || (betweenS 49 s2 == openSegment 49 s2 ||| square_bb s2)) = true := by
  decide

set_option maxRecDepth 10000 in
set_option maxHeartbeats 1000000 in
theorem betweenRow_50 : ((List.range 64).all fun s2 =>
    (!(alignedB 50 s2)) || (betweenS 50 s2 == openSegment 50 s2 ||| square_bb s2)) = true := by
  decide

set_option maxRecDepth 10000 in
set_option maxHeartbeats 1000000 in
theorem betweenRow_51 : ((List.range 64).all fun s2 =>
    (!(alignedB 51 s2)) || (betweenS 51 s2 == openSegment 51 s2 ||| square_bb s2)) = true := by
  decide

set_option maxRecDepth 10000 in
set_option maxHeartbeats 1000000 in
theorem betweenRow_52 : ((List.range 64).all fun s2 =>
    (!(alignedB 52 s2)) || (betweenS 52 s2 == openSegment 52 s2 ||| square_bb s2)) = true := by
  decide

set_option maxRecDepth 10000 in
set_option maxHeartbeats 1000000 in
theorem betweenRow_53 : ((List.range 64).all fun s2 =>
    (!(alignedB 53 s2)) || (betweenS 53 s2 == openSegment 53 s2 ||| square_bb s2)) = true := by
  decide

set_option maxRecDepth 10000 in
set_option maxHeartbeats 1000000 in
theorem betweenRow_54 : ((List.range 64).all fun s2 =>
    (!(alignedB 54 s2)) || (betweenS 54 s2 == openSegment 54 s2 ||| square_bb s2)) = true := by
  decide

set_option maxRecDepth 10000 in
set_option maxHeartbeats 1000000 in
theorem betweenRow_55 : ((List.range 64).all fun s2 =>
    (!(alignedB 55 s2)) || (betweenS 55 s2 == openSegment 55 s2 ||| square_bb s2)) = true := by
  decide

set_option maxRecDepth 10000 in
set_option maxHeartbeats 1000000 in
theorem betweenRow_56 : ((List.range 64).all fun s2 =>
    (!(alignedB 56 s2)) || (betweenS 56 s2 == openSegment 56 s2 ||| square_bb s2)) = true := by
  decide

set_option maxRecDepth 10000 in
set_option maxHeartbeats 1000000 in
theorem betweenRow_57 : ((List.range 64).all fun s2 =>
    (!(alignedB 57 s2)) || (betweenS 57 s2 == openSegment 57 s2 ||| square_bb s2)) = true := by
  decide

set_option maxRecDepth 10000 in
set_option maxHeartbeats 1000000 in
theorem betweenRow_58 : ((List.range 64).all fun s2 =>
    (!(alignedB 58 s2)) || (betweenS 58 s2 == openSegment 58 s2 ||| square_bb s2)) = true := by
  decide

set_option maxRecDepth 10000 in
set_option maxHeartbeats 1000000 in
theorem betweenRow_59 : ((List.range 64).all fun s2 =>
    (!(alignedB 59 s2)) || (betweenS 59 s2 == openSegment 59 s2 ||| square_bb s2)) = true := by
  decide

set_option maxRecDepth 10000 in
set_option maxHeartbeats 1000000 in
theorem betweenRow_60 : ((List.range 64).all fun s2 =>
    (!(alignedB 60 s2)) || (betweenS 60 s2 == openSegment 60 s2 ||| square_bb s2)) = true := by
  decide

set_option maxRecDepth 10000 in
set_option maxHeartbeats 1000000 in
theorem betweenRow_61 : ((List.range 64).all fun s2 =>
    (!(alignedB 61 s2)) || (betweenS 61 s2 == openSegment 61 s2 ||| square_bb s2)) = true := by
  decide

set_option maxRecDepth 10000 in
set_option maxHeartbeats 1000000 in
theorem betweenRow_62 : ((List.range 64).all fun s2 =>
    (!(alignedB 62 s2)) || (betweenS 62 s2 == openSegment 62 s2 ||| square_bb s2)) = true := by
  decide

set_option maxRecDepth 10000 in
set_option maxHeartbeats 1000000 in
theorem betweenRow_63 : ((List.range 64).all fun s2 =>
    (!(alignedB 63 s2)) || (betweenS 63 s2 == openSegment 63 s2 ||| square_bb s2)) = true := by
  decide

theorem betweenOK_eq : betweenOK = true := by
  unfold betweenOK
  rw [List.all_eq_true]
  intro s1 hs1
  rw [List.mem_range] at hs1
  interval_cases s1
  · exact betweenRow_0
  · exact betweenRow_1
  · exact betweenRow_2
  · exact betweenRow_3
  · exact betweenRow_4
  · exact betweenRow_5
  · exact betweenRow_6
  · exact betweenRow_7
  · exact betweenRow_8
  · exact betweenRow_9
  · exact betweenRow_10
  · exact betweenRow_11
  · exact betweenRow_12
  · exact betweenRow_13
  · exact betweenRow_14
  · exact betweenRow_15
  · exact betweenRow_16
  · exact betweenRow_17
  · exact betweenRow_18
  · exact betweenRow_19
  · exact betweenRow_20
  · exact betweenRow_21
  · exact betweenRow_22
  · exact betweenRow_23
  · exact betweenRow_24
  · exact betweenRow_25
  · exact betweenRow_26
  · exact betweenRow_27
  · exact betweenRow_28
  · exact betweenRow_29
  · exact betweenRow_30
  · exact betweenRow_31
  · exact betweenRow_32
  · exact betweenRow_33
  · exact betweenRow_34
  · exact betweenRow_35
  · exact betweenRow_36
  · exact betweenRow_37
  · exact betweenRow_38
  · exact betweenRow_39
  · exact betweenRow_40
  · exact betweenRow_41
  · exact betweenRow_42
  · exact betweenRow_43
  · exact betweenRow_44
  · exact betweenRow_45
  · exact betweenRow_46
  · exact betweenRow_47
  · exact betweenRow_48
  · exact betweenRow_49
  · exact betweenRow_50
  · exact betweenRow_51
  · exact betweenRow_52
  · exact betweenRow_53
  · exact betweenRow_54
  · exact betweenRow_55
  · exact betweenRow_56
  · exact betweenRow_57
  · exact betweenRow_58
  · exact betweenRow_59
  · exact betweenRow_60
  · exact betweenRow_61
  · exact betweenRow_62
  · exact betweenRow_63

set_option maxRecDepth 10000 in
set_option maxHeartbeats 1000000 in
theorem magicSq_0 : (magicOK (maskOf .ROOK 0) (magicNumOf .ROOK 0) RookBits &&
    magicOK (maskOf .BISHOP 0) (magicNumOf .BISHOP 0) BishopBits) = true := by decide

set_option maxRecDepth 10000 in
set_option maxHeartbeats 1000000 in
theorem magicSq_1 : (magicOK (maskOf .ROOK 1) (magicNumOf .ROOK 1) RookBits &&
    magicOK (maskOf .BISHOP 1) (magicNumOf .BISHOP 1) BishopBits) = true := by decide

set_option maxRecDepth 10000 in
set_option maxHeartbeats 1000000 in
theorem magicSq_2 : (magicOK (maskOf .ROOK 2) (magicNumOf .ROOK 2) RookBits &&
    magicOK (maskOf .BISHOP 2) (magicNumOf .BISHOP 2) BishopBits) = true := by decide

set_option maxRecDepth 10000 in
set_option maxHeartbeats 1000000 in
theorem magicSq_3 : (magicOK (maskOf .ROOK 3) (magicNumOf .ROOK 3) RookBits &&
    magicOK (maskOf .BISHOP 3) (magicNumOf .BISHOP 3) BishopBits) = true := by decide

set_option maxRecDepth 10000 in
set_option maxHeartbeats 1000000 in
theorem magicSq_4 : (magicOK (maskOf .ROOK 4) (magicNumOf .ROOK 4) RookBits &&
    magicOK (maskOf .BISHOP 4) (magicNumOf .BISHOP 4) BishopBits) = true := by decide

set_option maxRecDepth 10000 in
set_option maxHeartbeats 1000000 in
theorem magicSq_5 : (magicOK (maskOf .ROOK 5) (magicNumOf .ROOK 5) RookBits &&
    magicOK (maskOf .BISHOP 5) (magicNumOf .BISHOP 5) BishopBits) = true := by decide

set_option maxRecDepth 10000 in
set_option maxHeartbeats 1000000 in
theorem magicSq_6 : (magicOK (maskOf .ROOK 6) (magicNumOf .ROOK 6) RookBits &&
    magicOK (maskOf .BISHOP 6) (magicNumOf .BISHOP 6) BishopBits) = true := by decide

set_option maxRecDepth 10000 in
set_option maxHeartbeats 1000000 in
theorem magicSq_7 : (magicOK (maskOf .ROOK 7) (magicNumOf .ROOK 7) RookBits &&
    magicOK (maskOf .BISHOP 7) (magicNumOf .BISHOP 7) BishopBits) = true := by decide

set_option maxRecDepth 10000 in
set_option maxHeartbeats 1000000 in
theorem magicSq_8 : (magicOK (maskOf .ROOK 8) (magicNumOf .ROOK 8) RookBits &&
    magicOK (maskOf .BISHOP 8) (magicNumOf .BISHOP 8) BishopBits) = true := by decide

set_option maxRecDepth 10000 in
set_option maxHeartbeats 1000000 in
theorem magicSq_9 : (magicOK (maskOf .ROOK 9) (magicNumOf .ROOK 9) RookBits &&
    magicOK (maskOf .BISHOP 9) (magicNumOf .BISHOP 9) BishopBits) = true := by decide

set_option maxRecDepth 10000 in
set_option maxHeartbeats 1000000 in
theorem magicSq_10 : (magicOK (maskOf .ROOK 10) (magicNumOf .ROOK 10) RookBits &&
    magicOK (maskOf .BISHOP 10) (magicNumOf .BISHOP 10) BishopBits) = true := by decide

set_option maxRecDepth 10000 in
set_option maxHeartbeats 1000000 in
theorem magicSq_11 : (magicOK (maskOf .ROOK 11) (magicNumOf .ROOK 11) RookBits &&
    magicOK (maskOf .BISHOP 11) (magicNumOf .BISHOP 11) BishopBits) = true := by decide

set_option maxRecDepth 10000 in
set_option maxHeartbeats 1000000 in
theorem magicSq_12 : (magicOK (maskOf .ROOK 12) (magicNumOf .ROOK 12) RookBits &&
    magicOK (maskOf .BISHOP 12) (magicNumOf .BISHOP 12) BishopBits) = true := by decide

set_option maxRecDepth 10000 in
set_option maxHeartbeats 1000000 in
theorem magicSq_13 : (magicOK (maskOf .ROOK 13) (magicNumOf .ROOK 13) RookBits &&
    magicOK (maskOf .BISHOP 13) (magicNumOf .BISHOP 13) BishopBits) = true := by decide

set_option maxRecDepth 10000 in
set_option maxHeartbeats 1000000 in
theorem magicSq_14 : (magicOK (maskOf .ROOK 14) (magicNumOf .ROOK 14) RookBits &&
    magicOK (maskOf .BISHOP 14) (magicNumOf .BISHOP 14) BishopBits) = true := by decide

set_option maxRecDepth 10000 in
set_option maxHeartbeats 1000000 in
theorem magicSq_15 : (magicOK (maskOf .ROOK 15) (magicNumOf .ROOK 15) RookBits &&
    magicOK (maskOf .BISHOP 15) (magicNumOf .BISHOP 15) BishopBits) = true := by decide

set_option maxRecDepth 10000 in
set_option maxHeartbeats 1000000 in
theorem magicSq_16 : (magicOK (maskOf .ROOK 16) (magicNumOf .ROOK 16) RookBits &&
    magicOK (maskOf .BISHOP 16) (magicNumOf .BISHOP 16) BishopBits) = true := by decide

set_option maxRecDepth 10000 in
set_option maxHeartbeats 1000000 in
theorem magicSq_17 : (magicOK (maskOf .ROOK 17) (magicNumOf .ROOK 17) RookBits &&
    magicOK (maskOf .BISHOP 17) (magicNumOf .BISHOP 17) BishopBits) = true := by decide

set_option maxRecDepth 10000 in
set_option maxHeartbeats 1000000 in
theorem magicSq_18 : (magicOK (maskOf .ROOK 18) (magicNumOf .ROOK 18) RookBits &&
    magicOK (maskOf .BISHOP 18) (magicNumOf .BISHOP 18) BishopBits) = true := by decide

set_option maxRecDepth 10000 in
set_option maxHeartbeats 1000000 in
theorem magicSq_19 : (magicOK (maskOf .ROOK 19) (magicNumOf .ROOK 19) RookBits &&
    magicOK (maskOf .BISHOP 19) (magicNumOf .BISHOP 19) BishopBits) = true := by decide

set_option maxRecDepth 10000 in
set_option maxHeartbeats 1000000 in
theorem magicSq_20 : (magicOK (maskOf .ROOK 20) (magicNumOf .ROOK 20) RookBits &&
    magicOK (maskOf .BISHOP 20) (magicNumOf .BISHOP 20) BishopBits) = true := by decide

set_option maxRecDepth 10000 in
set_option maxHeartbeats 1000000 in
theorem magicSq_21 : (magicOK (maskOf .ROOK 21) (magicNumOf .ROOK 21) RookBits &&
    magicOK (maskOf .BISHOP 21) (magicNumOf .BISHOP 21) BishopBits) = true := by decide

set_option maxRecDepth 10000 in
set_option maxHeartbeats 1000000 in
theorem magicSq_22 : (magicOK (maskOf .ROOK 22) (magicNumOf .ROOK 22) RookBits &&
    magicOK (maskOf .BISHOP 22) (magicNumOf .BISHOP 22) BishopBits) = true := by decide

set_option maxRecDepth 10000 in
set_option maxHeartbeats 1000000 in
theorem magicSq_23 : (magicOK (maskOf .ROOK 23) (magicNumOf .ROOK 23) RookBits &&
    magicOK (maskOf .BISHOP 23) (magicNumOf .BISHOP 23) BishopBits) = true := by decide

set_option maxRecDepth 10000 in
set_option maxHeartbeats 1000000 in
theorem magicSq_24 : (magicOK (maskOf .ROOK 24) (magicNumOf .ROOK 24) RookBits &&
    magicOK (maskOf .BISHOP 24) (magicNumOf .BISHOP 24) BishopBits) = true := by decide

set_option maxRecDepth 10000 in
set_option maxHeartbeats 1000000 in
theorem magicSq_25 : (magicOK (maskOf .ROOK 25) (magicNumOf .ROOK 25) RookBits &&
    magicOK (maskOf .BISHOP 25) (magicNumOf .BISHOP 25) BishopBits) = true := by decide

set_option maxRecDepth 10000 in
set_option maxHeartbeats 1000000 in
theorem magicSq_26 : (magicOK (maskOf .ROOK 26) (magicNumOf .ROOK 26) RookBits &&
    magicOK (maskOf .BISHOP 26) (magicNumOf .BISHOP 26) BishopBits) = true := by decide

set_option maxRecDepth 10000 in
set_option maxHeartbeats 1000000 in
theorem magicSq_27 : (magicOK (maskOf .ROOK 27) (magicNumOf .ROOK 27) RookBits &&
    magicOK (maskOf .BISHOP 27) (magicNumOf .BISHOP 27) BishopBits) = true := by decide

set_option maxRecDepth 10000 in
set_option maxHeartbeats 1000000 in
theorem magicSq_28 : (magicOK (maskOf .ROOK 28) (magicNumOf .ROOK 28) RookBits &&
    magicOK (maskOf .BISHOP 28) (magicNumOf .BISHOP 28) BishopBits) = true := by decide

set_option maxRecDepth 10000 in
set_option maxHeartbeats 1000000 in
theorem magicSq_29 : (magicOK (maskOf .ROOK 29) (magicNumOf .ROOK 29) RookBits &&
    magicOK (maskOf .BISHOP 29) (magicNumOf .BISHOP 29) BishopBits) = true := by decide

set_option maxRecDepth 10000 in
set_option maxHeartbeats 1000000 in
theorem magicSq_30 : (magicOK (maskOf .ROOK 30) (magicNumOf .ROOK 30) RookBits &&
    magicOK (maskOf .BISHOP 30) (magicNumOf .BISHOP 30) BishopBits) = true := by decide

set_option maxRecDepth 10000 in
set_option maxHeartbeats 1000000 in
theorem magicSq_31 : (magicOK (maskOf .ROOK 31) (magicNumOf .ROOK 31) RookBits &&
    magicOK (maskOf .BISHOP 31) (magicNumOf .BISHOP 31) BishopBits) = true := by decide

set_option maxRecDepth 10000 in
set_option maxHeartbeats 1000000 in
theorem magicSq_32 : (magicOK (maskOf .ROOK 32) (magicNumOf .ROOK 32) RookBits &&
    magicOK (maskOf .BISHOP 32) (magicNumOf .BISHOP 32) BishopBits) = true := by decide

set_option maxRecDepth 10000 in
set_option maxHeartbeats 1000000 in
theorem magicSq_33 : (magicOK (maskOf .ROOK 33) (magicNumOf .ROOK 33) RookBits &&
    magicOK (maskOf .BISHOP 33) (magicNumOf .BISHOP 33) BishopBits) = true := by decide

set_option maxRecDepth 10000 in
set_option maxHeartbeats 1000000 in
theorem magicSq_34 : (magicOK (maskOf .ROOK 34) (magicNumOf .ROOK 34) RookBits &&
    magicOK (maskOf .BISHOP 34) (magicNumOf .BISHOP 34) BishopBits) = true := by decide

set_option maxRecDepth 10000 in
set_option maxHeartbeats 1000000 in
theorem magicSq_35 : (magicOK (maskOf .ROOK 35) (magicNumOf .ROOK 35) RookBits &&
    magicOK (maskOf .BISHOP 35) (magicNumOf .BISHOP 35) BishopBits) = true := by decide

set_option maxRecDepth 10000 in
set_option maxHeartbeats 1000000 in
theorem magicSq_36 : (magicOK (maskOf .ROOK 36) (magicNumOf .ROOK 36) RookBits &&
    magicOK (maskOf .BISHOP 36) (magicNumOf .BISHOP 36) BishopBits) = true := by decide

set_option maxRecDepth 10000 in
set_option maxHeartbeats 1000000 in
theorem magicSq_37 : (magicOK (maskOf .ROOK 37) (magicNumOf .ROOK 37) RookBits &&
    magicOK (maskOf .BISHOP 37) (magicNumOf .BISHOP 37) BishopBits) = true := by decide

set_option maxRecDepth 10000 in
set_option maxHeartbeats 1000000 in
theorem magicSq_38 : (magicOK (maskOf .ROOK 38) (magicNumOf .ROOK 38) RookBits &&
    magicOK (maskOf .BISHOP 38) (magicNumOf .BISHOP 38) BishopBits) = true := by decide

set_option maxRecDepth 10000 in
set_option maxHeartbeats 1000000 in
theorem magicSq_39 : (magicOK (maskOf .ROOK 39) (magicNumOf .ROOK 39) RookBits &&
    magicOK (maskOf .BISHOP 39) (magicNumOf .BISHOP 39) BishopBits) = true := by decide

set_option maxRecDepth 10000 in
set_option maxHeartbeats 1000000 in
theorem magicSq_40 : (magicOK (maskOf .ROOK 40) (magicNumOf .ROOK 40) RookBits &&
    magicOK (maskOf .BISHOP 40) (magicNumOf .BISHOP 40) BishopBits) = true := by decide

set_option maxRecDepth 10000 in
set_option maxHeartbeats 1000000 in
theorem magicSq_41 : (magicOK (maskOf .ROOK 41) (magicNumOf .ROOK 41) RookBits &&
    magicOK (maskOf .BISHOP 41) (magicNumOf .BISHOP 41) BishopBits) = true := by decide

set_option maxRecDepth 10000 in
set_option maxHeartbeats 1000000 in
theorem magicSq_42 : (magicOK (maskOf .ROOK 42) (magicNumOf .ROOK 42) RookBits &&
    magicOK (maskOf .BISHOP 42) (magicNumOf .BISHOP 42) BishopBits) = true := by decide

set_option maxRecDepth 10000 in
set_option maxHeartbeats 1000000 in
theorem magicSq_43 : (magicOK (maskOf .ROOK 43) (magicNumOf .ROOK 43) RookBits &&
    magicOK (maskOf .BISHOP 43) (magicNumOf .BISHOP 43) BishopBits) = true := by decide

set_option maxRecDepth 10000 in
set_option maxHeartbeats 1000000 in
theorem magicSq_44 : (magicOK (maskOf .ROOK 44) (magicNumOf .ROOK 44) RookBits &&
    magicOK (maskOf .BISHOP 44) (magicNumOf .BISHOP 44) BishopBits) = true := by decide

set_option maxRecDepth 10000 in
set_option maxHeartbeats 1000000 in
theorem magicSq_45 : (magicOK (maskOf .ROOK 45) (magicNumOf .ROOK 45) RookBits &&
    magicOK (maskOf .BISHOP 45) (magicNumOf .BISHOP 45) BishopBits) = true := by decide

set_option maxRecDepth 10000 in
set_option maxHeartbeats 1000000 in
theorem magicSq_46 : (magicOK (maskOf .ROOK 46) (magicNumOf .ROOK 46) RookBits &&
    magicOK (maskOf .BISHOP 46) (magicNumOf .BISHOP 46) BishopBits) = true := by decide

set_option maxRecDepth 10000 in
set_option maxHeartbeats 1000000 in
theorem magicSq_47 : (magicOK (maskOf .ROOK 47) (magicNumOf .ROOK 47) RookBits &&
    magicOK (maskOf .BISHOP 47) (magicNumOf .BISHOP 47) BishopBits) = true := by decide

set_option maxRecDepth 10000 in
set_option maxHeartbeats 1000000 in
theorem magicSq_48 : (magicOK (maskOf .ROOK 48) (magicNumOf .ROOK 48) RookBits &&
    magicOK (maskOf .BISHOP 48) (magicNumOf .BISHOP 48) BishopBits) = true := by decide

set_option maxRecDepth 10000 in
set_option maxHeartbeats 1000000 in
theorem magicSq_49 : (magicOK (maskOf .ROOK 49) (magicNumOf .ROOK 49) RookBits &&
    magicOK (maskOf .BISHOP 49) (magicNumOf .BISHOP 49) BishopBits) = true := by decide

set_option maxRecDepth 10000 in
set_option maxHeartbeats 1000000 in
theorem magicSq_50 : (magicOK (maskOf .ROOK 50) (magicNumOf .ROOK 50) RookBits &&
    magicOK (maskOf .BISHOP 50) (magicNumOf .BISHOP 50) BishopBits) = true := by decide

set_option maxRecDepth 10000 in
set_option maxHeartbeats 1000000 in
theorem magicSq_51 : (magicOK (maskOf .ROOK 51) (magicNumOf .ROOK 51) RookBits &&
    magicOK (maskOf .BISHOP 51) (magicNumOf .BISHOP 51) BishopBits) = true := by decide

set_option maxRecDepth 10000 in
set_option maxHeartbeats 1000000 in
theorem magicSq_52 : (magicOK (maskOf .ROOK 52) (magicNumOf .ROOK 52) RookBits &&
    magicOK (maskOf .BISHOP 52) (magicNumOf .BISHOP 52) BishopBits) = true := by decide

set_option maxRecDepth 10000 in
set_option maxHeartbeats 1000000 in
theorem magicSq_53 : (magicOK (maskOf .ROOK 53) (magicNumOf .ROOK 53) RookBits &&
    magicOK (maskOf .BISHOP 53) (magicNumOf .BISHOP 53) BishopBits) = true := by decide

set_option maxRecDepth 10000 in
set_option maxHeartbeats 1000000 in
theorem magicSq_54 : (magicOK (maskOf .ROOK 54) (magicNumOf .ROOK 54) RookBits &&
    magicOK (maskOf .BISHOP 54) (magicNumOf .BISHOP 54) BishopBits) = true := by decide

set_option maxRecDepth 10000 in
set_option maxHeartbeats 1000000 in
theorem magicSq_55 : (magicOK (maskOf .ROOK 55) (magicNumOf .ROOK 55) RookBits &&
    magicOK (maskOf .BISHOP 55) (magicNumOf .BISHOP 55) BishopBits) = true := by decide

set_option maxRecDepth 10000 in
set_option maxHeartbeats 1000000 in
theorem magicSq_56 : (magicOK (maskOf .ROOK 56) (magicNumOf .ROOK 56) RookBits &&
    magicOK (maskOf .BISHOP 56) (magicNumOf .BISHOP 56) BishopBits) = true := by decide

set_option maxRecDepth 10000 in
set_option maxHeartbeats 1000000 in
theorem magicSq_57 : (magicOK (maskOf .ROOK 57) (magicNumOf .ROOK 57) RookBits &&
    magicOK (maskOf .BISHOP 57) (magicNumOf .BISHOP 57) BishopBits) = true := by decide

set_option maxRecDepth 10000 in
set_option maxHeartbeats 1000000 in
theorem magicSq_58 : (magicOK (maskOf .ROOK 58) (magicNumOf .ROOK 58) RookBits &&
    magicOK (maskOf .BISHOP 58) (magicNumOf .BISHOP 58) BishopBits) = true := by decide

set_option maxRecDepth 10000 in
set_option maxHeartbeats 1000000 in
theorem magicSq_59 : (magicOK (maskOf .ROOK 59) (magicNumOf .ROOK 59) RookBits &&
    magicOK (maskOf .BISHOP 59) (magicNumOf .BISHOP 59) BishopBits) = true := by decide

set_option maxRecDepth 10000 in
set_option maxHeartbeats 1000000 in
theorem magicSq_60 : (magicOK (maskOf .ROOK 60) (magicNumOf .ROOK 60) RookBits &&
    magicOK (maskOf .BISHOP 60) (magicNumOf .BISHOP 60) BishopBits) = true := by decide

set_option maxRecDepth 10000 in
set_option maxHeartbeats 1000000 in
theorem magicSq_61 : (magicOK (maskOf .ROOK 61) (magicNumOf .ROOK 61) RookBits &&
    magicOK (maskOf .BISHOP 61) (magicNumOf .BISHOP 61) BishopBits) = true := by decide

set_option maxRecDepth 10000 in
set_option maxHeartbeats 1000000 in
theorem magicSq_62 : (magicOK (maskOf .ROOK 62) (magicNumOf .ROOK 62) RookBits &&
    magicOK (maskOf .BISHOP 62) (magicNumOf .BISHOP 62) BishopBits) = true := by decide

set_option maxRecDepth 10000 in
set_option maxHeartbeats 1000000 in
theorem magicSq_63 : (magicOK (maskOf .ROOK 63) (magicNumOf .ROOK 63) RookBits &&
    magicOK (maskOf .BISHOP 63) (magicNumOf .BISHOP 63) BishopBits) = true := by decide

theorem allMagicOK_eq : allMagicOK = true := by
  unfold allMagicOK
  rw [List.all_eq_true]
  intro s hs
  rw [List.mem_range] at hs
  interval_cases s
  · exact magicSq_0
  · exact magicSq_1
  · exact magicSq_2
  · exact magicSq_3
  · exact magicSq_4
  · exact magicSq_5
  · exact magicSq_6
  · exact magicSq_7
  · exact magicSq_8
  · exact magicSq_9
  · exact magicSq_10
  · exact magicSq_11
  · exact magicSq_12
  · exact magicSq_13
  · exact magicSq_14
  · exact magicSq_15
  · exact magicSq_16
  · exact magicSq_17
  · exact magicSq_18
  · exact magicSq_19
  · exact magicSq_20
  · exact magicSq_21
  · exact magicSq_22
  · exact magicSq_23
  · exact magicSq_24
  · exact magicSq_25
  · exact magicSq_26
  · exact magicSq_27
  · exact magicSq_28
  · exact magicSq_29
  · exact magicSq_30
  · exact magicSq_31
  · exact magicSq_32
  · exact magicSq_33
  · exact magicSq_34
  · exact magicSq_35
  · exact magicSq_36
  · exact magicSq_37
  · exact magicSq_38
  · exact magicSq_39
  · exact magicSq_40
  · exact magicSq_41
  · exact magicSq_42
  · exact magicSq_43
  · exact magicSq_44
  · exact magicSq_45
  · exact magicSq_46
  · exact magicSq_47
  · exact magicSq_48
  · exact magicSq_49
  · exact magicSq_50
  · exact magicSq_51
  · exact magicSq_52
  · exact magicSq_53
  · exact magicSq_54
  · exact magicSq_55
  · exact magicSq_56
  · exact magicSq_57
  · exact magicSq_58
  · exact magicSq_59
  · exact magicSq_60
  · exact magicSq_61
  · exact magicSq_62
  · exact magicSq_63

/-! # The claims -/

/-- C1: for every square and sliding category, the magic index function sends
the `2 ^ popcount mask` enumerated subsets of that square's relevant-occupancy
mask to pairwise-distinct indices, each below `2 ^ bits`, so the builder's
range assertion and freshness assertion never fail for the embedded
constants. -/
theorem C1_index_injective_in_range (pt : PieceType) (s : Nat) (hs : s < 64) :
    ((subsetList (maskOf pt s)).map (indexOf pt s)).Nodup ∧
      (subsetList (maskOf pt s)).length = 2 ^ popcount (maskOf pt s) ∧
      ∀ b ∈ subsetList (maskOf pt s), indexOf pt s b < 2 ^ bitsOf pt := by
  refine ⟨?_, ?_, ?_⟩
  · exact map_index_nodup (maskOf pt s) (magicNumOf pt s) (bitsOf pt) (maskOf_lt pt s)
      (magicOK_of_all allMagicOK_eq pt s hs)
  · exact subsetsFrom_length (maskOf pt s) _ _
  · intro b hb
    exact magic_index_lt (maskOf pt s) (magicNumOf pt s) (bitsOf pt) b (by cases pt <;> decide)

theorem C1_witness : (0 : Nat) < 64 ∧
    (((subsetList (maskOf .ROOK 0)).map (indexOf .ROOK 0)).Nodup ∧
      (subsetList (maskOf .ROOK 0)).length = 2 ^ popcount (maskOf .ROOK 0) ∧
      ∀ b ∈ subsetList (maskOf .ROOK 0), indexOf .ROOK 0 b < 2 ^ bitsOf .ROOK) :=
  ⟨by decide, C1_index_injective_in_range .ROOK 0 (by decide)⟩

/-- C2 (amended): the table lookup agrees with the ray-walking oracle on every
occupancy that does not contain the queried square itself.  The claim's
universal form over all occupancies fails: see the counterexample. -/
theorem C2_lookup_matches_oracle (pt : PieceType) (s occ : Nat)
    (hs : s < 64) (hocc : occ &&& square_bb s = 0) :
    attacks_bb pt s occ = sliding_attack pt s occ :=
  attacks_bb_eq_sliding pt s allMagicOK_eq relAllOK_eq hs occ hocc

theorem C2_witness : (0 : Nat) < 64 ∧ ((0 : Nat) &&& square_bb 0 = 0) ∧
    attacks_bb .ROOK 0 0 = sliding_attack .ROOK 0 0 :=
  ⟨by decide, by decide, C2_lookup_matches_oracle .ROOK 0 0 (by decide) (by decide)⟩

/-- C2 counterexample: at `ROOK`, square A1, occupancy {A1} the oracle returns
the empty board (the walk tests the occupied origin before its first step)
while the table lookup, whose relevant mask excludes the origin, returns the
unobstructed rook attacks, so the claimed equality for every occupancy is
false. -/
theorem C2_counterexample :
    attacks_bb .ROOK 0 (square_bb 0) ≠ sliding_attack .ROOK 0 (square_bb 0) := by
  have h1 : attacks_bb .ROOK 0 (square_bb 0) =
      sliding_attack .ROOK 0 (square_bb 0 &&& maskOf .ROOK 0) :=
    attacks_bb_eq_masked .ROOK 0 allMagicOK_eq (by omega) (square_bb 0)
  have h2 : square_bb 0 &&& maskOf .ROOK 0 = 0 := by
    rw [Nat.and_comm]
    exact maskOf_no_origin .ROOK 0
  rw [h1, h2]
  decide

/-- C3 (amended): a square is in `sliding_attack` exactly when it is reached
from the origin along one of the category's four directions by consecutive
safe steps all of whose visited squares — the origin included — are
unoccupied.  The walk therefore stops after the first occupied destination as
the claim says, but it also tests the origin itself, which the claim's
stopping rule does not: see the counterexample. -/
theorem C3_walk_characterisation (pt : PieceType) (sq occ x : Nat) (hsq : sq < 64) :
    (sliding_attack pt sq occ).testBit x = true ↔ codeAttacked pt sq occ x :=
  sliding_attack_testBit_iff pt sq occ x hsq noChain8_eq

theorem C3_witness : (0 : Nat) < 64 ∧
    ((sliding_attack .ROOK 0 0).testBit 8 = true ↔ codeAttacked .ROOK 0 0 8) :=
  ⟨by decide, C3_walk_characterisation .ROOK 0 0 8 (by decide)⟩

/-- C3 counterexample: under the claim's walk description (stop only on
leaving the board or after adding an occupied destination) square B1 would be
attacked by a rook on the occupied square A1, but the code's walk tests the
current square before every step and returns the empty board. -/
theorem C3_counterexample :
    specAttacked .ROOK 0 (square_bb 0) 1 ∧
      (sliding_attack .ROOK 0 (square_bb 0)).testBit 1 = false := by
  constructor
  · refine ⟨1, by decide, 1, le_refl 1, ?_, by decide, ?_⟩
    · intro i hi
      interval_cases i
      decide
    · intro i hi1 hi2
      omega
  · decide

/-- C4: for every 64-bit mask, the Carry-Rippler recurrence
`b = (b - mask) &&& mask` started at the empty subset visits exactly
`2 ^ popcount mask` pairwise-distinct subsets of the mask, visits every
subset, and is back at the empty subset after exactly that many steps. -/
theorem C4_carry_rippler (mask : Nat) (hm : mask < 2 ^ 64) :
    ((List.range (2 ^ popcount mask)).map fun k => (nextSubset mask)^[k] 0).Nodup ∧
      (∀ k, k < 2 ^ popcount mask →
        ((nextSubset mask)^[k] 0) &&& mask = (nextSubset mask)^[k] 0) ∧
      (∀ b, b &&& mask = b → ∃ k, k < 2 ^ popcount mask ∧ (nextSubset mask)^[k] 0 = b) ∧
      (nextSubset mask)^[2 ^ popcount mask] 0 = 0 := by
  have hpc := popcount_eq mask hm
  rw [hpc]
  refine ⟨?_, ?_, ?_, iterate_pdep_cycle mask hm⟩
  · refine List.Nodup.map_on ?_ (List.nodup_range _)
    intro x hx y hy hxy
    rw [List.mem_range] at hx hy
    rw [iterate_pdep mask hm x hx, iterate_pdep mask hm y hy] at hxy
    by_contra hne
    rcases Nat.lt_or_ge x y with h | h
    · exact absurd hxy (Nat.ne_of_lt (pdep_lt_pdep mask x y h hy))
    · exact absurd hxy.symm (Nat.ne_of_lt (pdep_lt_pdep mask y x (by omega) hx))
  · intro k hk
    rw [iterate_pdep mask hm k hk]
    exact pdep_land mask k
  · intro b hb
    obtain ⟨k, hk, hkb⟩ := pdep_surj mask b hb
    refine ⟨k, hk, ?_⟩
    rw [iterate_pdep mask hm k hk]
    exact hkb

theorem C4_witness : (5 : Nat) < 2 ^ 64 ∧
    (((List.range (2 ^ popcount 5)).map fun k => (nextSubset 5)^[k] 0).Nodup ∧
      (∀ k, k < 2 ^ popcount 5 → ((nextSubset 5)^[k] 0) &&& 5 = (nextSubset 5)^[k] 0) ∧
      (∀ b, b &&& 5 = b → ∃ k, k < 2 ^ popcount 5 ∧ (nextSubset 5)^[k] 0 = b) ∧
      (nextSubset 5)^[2 ^ popcount 5] 0 = 0) :=
  ⟨by decide, C4_carry_rippler 5 (by decide)⟩

/-- C5: `BetweenBB` always contains the destination square; the diagonal
entry `BetweenBB s s` is exactly `{s}`; and on every aligned pair it is
exactly the open segment strictly between the two squares plus the
destination. -/
theorem C5_between_table (s1 s2 : Nat) (h1 : s1 < 64) (h2 : s2 < 64) :
    BetweenBB s1 s2 &&& square_bb s2 = square_bb s2 ∧
      BetweenBB s1 s1 = square_bb s1 ∧
      ((PseudoAttacks .ROOK s1 &&& square_bb s2 ≠ 0 ∨
        PseudoAttacks .BISHOP s1 &&& square_bb s2 ≠ 0) →
        BetweenBB s1 s2 = openSegment s1 s2 ||| square_bb s2) := by
  refine ⟨?_, BetweenBB_diag s1 allMagicOK_eq relAllOK_eq h1, ?_⟩
  · unfold BetweenBB
    exact land_lor_absorb2 _ _
  · intro halign
    rw [PseudoAttacks_eq_sliding .ROOK s1 allMagicOK_eq relAllOK_eq h1,
      PseudoAttacks_eq_sliding .BISHOP s1 allMagicOK_eq relAllOK_eq h1] at halign
    have hne : s1 ≠ s2 := by
      rcases halign with h | h
      · exact ((pseudoGeom_rook pseudoGeomOK_eq s1 s2 h1 h2).mp h).1
      · exact ((pseudoGeom_bishop pseudoGeomOK_eq s1 s2 h1 h2).mp h).1
    rw [BetweenBB_eq_betweenS s1 s2 allMagicOK_eq relAllOK_eq h1 h2 hne]
    exact betweenOK_extract betweenOK_eq s1 s2 h1 h2 ((alignedB_iff s1 s2).mpr halign)

theorem C5_witness : (0 : Nat) < 64 ∧ (7 : Nat) < 64 ∧
    (BetweenBB 0 7 &&& square_bb 7 = square_bb 7 ∧
      BetweenBB 0 0 = square_bb 0 ∧
      ((PseudoAttacks .ROOK 0 &&& square_bb 7 ≠ 0 ∨
        PseudoAttacks .BISHOP 0 &&& square_bb 7 ≠ 0) →
        BetweenBB 0 7 = openSegment 0 7 ||| square_bb 7)) :=
  ⟨by decide, by decide, C5_between_table 0 7 (by decide) (by decide)⟩

/-- C6: membership of `s2` in `s1`'s rook (resp. bishop) pseudo-attack set is
exactly sharing a file or rank (resp. a diagonal or antidiagonal) as distinct
squares; when it holds, `LineBB` is the intersection of the two squares'
empty-board rays of that category together with both endpoints, and when
neither holds `LineBB` is empty. -/
theorem C6_line_table (s1 s2 : Nat) (h1 : s1 < 64) (h2 : s2 < 64) :
    (PseudoAttacks .ROOK s1 &&& square_bb s2 ≠ 0 ↔
      s1 ≠ s2 ∧ (file_of s1 = file_of s2 ∨ rank_of s1 = rank_of s2)) ∧
    (PseudoAttacks .BISHOP s1 &&& square_bb s2 ≠ 0 ↔
      s1 ≠ s2 ∧ (file_of s1 + rank_of s2 = file_of s2 + rank_of s1 ∨
        file_of s1 + rank_of s1 = file_of s2 + rank_of s2)) ∧
    (PseudoAttacks .ROOK s1 &&& square_bb s2 ≠ 0 →
      LineBB s1 s2 = ((PseudoAttacks .ROOK s1 &&& PseudoAttacks .ROOK s2) |||
        square_bb s1) ||| square_bb s2) ∧
    (PseudoAttacks .BISHOP s1 &&& square_bb s2 ≠ 0 →
      LineBB s1 s2 = ((PseudoAttacks .BISHOP s1 &&& PseudoAttacks .BISHOP s2) |||
        square_bb s1) ||| square_bb s2) ∧
    (PseudoAttacks .ROOK s1 &&& square_bb s2 = 0 →
      PseudoAttacks .BISHOP s1 &&& square_bb s2 = 0 → LineBB s1 s2 = 0) := by
  have pR := PseudoAttacks_eq_sliding .ROOK s1 allMagicOK_eq relAllOK_eq h1
  have pB := PseudoAttacks_eq_sliding .BISHOP s1 allMagicOK_eq relAllOK_eq h1
  refine ⟨?_, ?_, ?_, ?_, ?_⟩
  · rw [pR]
    exact pseudoGeom_rook pseudoGeomOK_eq s1 s2 h1 h2
  · rw [pB]
    exact pseudoGeom_bishop pseudoGeomOK_eq s1 s2 h1 h2
  · intro hc
    unfold LineBB
    rw [if_pos hc]
    rfl
  · intro hc
    have hB2 : sliding_attack .BISHOP s1 0 &&& square_bb s2 ≠ 0 := by rwa [pB] at hc
    have hRneg : ¬ PseudoAttacks .ROOK s1 &&& square_bb s2 ≠ 0 := by
      rw [pR]
      exact rook_bishop_not_both pseudoDisjoint_eq s1 s2 h1 hB2
    unfold LineBB
    rw [if_neg hRneg, if_pos hc]
    rfl
  · intro hR0 hB0
    unfold LineBB
    rw [if_neg (fun hc => hc hR0), if_neg (fun hc => hc hB0)]

theorem C6_witness : (0 : Nat) < 64 ∧ (9 : Nat) < 64 ∧
    ((PseudoAttacks .ROOK 0 &&& square_bb 9 ≠ 0 ↔
      (0 : Nat) ≠ 9 ∧ (file_of 0 = file_of 9 ∨ rank_of 0 = rank_of 9)) ∧
    (PseudoAttacks .BISHOP 0 &&& square_bb 9 ≠ 0 ↔
      (0 : Nat) ≠ 9 ∧ (file_of 0 + rank_of 9 = file_of 9 + rank_of 0 ∨
        file_of 0 + rank_of 0 = file_of 9 + rank_of 9)) ∧
    (PseudoAttacks .ROOK 0 &&& square_bb 9 ≠ 0 →
      LineBB 0 9 = ((PseudoAttacks .ROOK 0 &&& PseudoAttacks .ROOK 9) |||
        square_bb 0) ||| square_bb 9) ∧
    (PseudoAttacks .BISHOP 0 &&& square_bb 9 ≠ 0 →
      LineBB 0 9 = ((PseudoAttacks .BISHOP 0 &&& PseudoAttacks .BISHOP 9) |||
        square_bb 0) ||| square_bb 9) ∧
    (PseudoAttacks .ROOK 0 &&& square_bb 9 = 0 →
      PseudoAttacks .BISHOP 0 &&& square_bb 9 = 0 → LineBB 0 9 = 0)) :=
  ⟨by decide, by decide, C6_line_table 0 9 (by decide) (by decide)⟩

/-- C7: each square's relevant-occupancy mask is the empty-board attack set
with the spec's edge set removed — edge ranks unless the square is on that
rank, edge files unless it is on that file — and so contains no such edge
square. -/
theorem C7_mask_excludes_edges (pt : PieceType) (s : Nat) (hs : s < 64) :
    maskOf pt s = sliding_attack pt s 0 &&& bbNot (edgesSpec s) ∧
      maskOf pt s &&& edgesSpec s = 0 := by
  have he : edges s = edgesSpec s := edgesOK_extract edgesOK_eq s hs
  constructor
  · unfold maskOf
    rw [he]
  · unfold maskOf
    rw [he]
    exact land_bbNot _ _ (edgesSpec_lt s)

theorem C7_witness : (0 : Nat) < 64 ∧
    (maskOf .ROOK 0 = sliding_attack .ROOK 0 0 &&& bbNot (edgesSpec 0) ∧
      maskOf .ROOK 0 &&& edgesSpec 0 = 0) :=
  ⟨by decide, C7_mask_excludes_edges .ROOK 0 (by decide)⟩

/-- C8: `safe_destination` is the destination's singleton bitboard exactly
when the stepped square stays on the board within Chebyshev distance two of
the origin, and the empty bitboard otherwise; in particular a step of +1 from
the h-file never wraps around to the next rank. -/
theorem C8_safe_destination (s : Nat) (step : Int) :
    (safe_destination s step ≠ 0 ↔
      0 ≤ (s : Int) + step ∧ (s : Int) + step ≤ 63 ∧
        distance s ((s : Int) + step).toNat ≤ 2) ∧
    (safe_destination s step = 0 ∨
      safe_destination s step = square_bb ((s : Int) + step).toNat) ∧
    (file_of s = 7 → safe_destination s 1 = 0) := by
  refine ⟨?_, ?_, ?_⟩
  · unfold safe_destination
    by_cases hc : 0 ≤ (s : Int) + step ∧ (s : Int) + step ≤ 63 ∧
        distance s ((s : Int) + step).toNat ≤ 2
    · rw [if_pos hc]
      simp only [ne_eq, iff_true_intro hc, iff_true]
      exact square_bb_ne_zero _
    · rw [if_neg hc]
      simp [hc]
  · unfold safe_destination
    by_cases hc : 0 ≤ (s : Int) + step ∧ (s : Int) + step ≤ 63 ∧
        distance s ((s : Int) + step).toNat ≤ 2
    · rw [if_pos hc]
      right
      rfl
    · rw [if_neg hc]
      left
      rfl
  · intro hf
    unfold safe_destination
    rw [if_neg]
    rintro ⟨h0, h63, hd⟩
    have ht : ((s : Int) + 1).toNat = s + 1 := by omega
    rw [ht] at hd
    unfold distance natDiff file_of rank_of at hd
    unfold file_of at hf
    simp only [max_le_iff] at hd
    omega

/-- C9: a sliding attack set never contains its own origin square, whatever
the occupancy. -/
theorem C9_no_origin (pt : PieceType) (sq occ : Nat) :
    sliding_attack pt sq occ &&& square_bb sq = 0 :=
  land_single_eq_zero _ _ (sliding_attack_origin_bit pt sq occ)

/-- C10: an occupancy containing the origin square makes every ray stop
before its first step, so the attack set is empty. -/
theorem C10_occupied_origin (pt : PieceType) (sq occ : Nat)
    (h : occ &&& square_bb sq ≠ 0) : sliding_attack pt sq occ = 0 :=
  sliding_attack_occupied pt sq occ h

theorem C10_witness : ((1 : Nat) &&& square_bb 0 ≠ 0) ∧ sliding_attack .ROOK 0 1 = 0 :=
  ⟨by decide, C10_occupied_origin .ROOK 0 1 (by decide)⟩

end StockfishBB
